import Mathlib

/-!
Verification of the `mkbo` front-matter generator scripts.

The repository holds five near-duplicate variants of one Node script:
  * variant A: src/mkbo.js, first script (flag `pageHasYoutube`, misspelled
    emission key, no credit block, image block gated on non-blank source);
  * variant B: src/mkbo.js, second script (flag `pageHasYoutube`, credit
    block with URL-validated `creditLink`, image block gated on non-blank
    source);
  * variant C: src/unnamed/part_000, first script (flag `pageHasVideo`,
    no credit block, image block gated on non-blank source);
  * variant D: src/unnamed/part_000, second script (entry types, `hasImage`
    gate, credit block, trailing `draft: true` line, per-type directories);
  * variant E: src/unnamed/part_000, third script (flag `pageHasVideo`,
    image block emitted unconditionally, alt interpolated directly).

JavaScript strings are modelled as Lean `String`; an absent (`undefined`)
field is modelled as `none : Option String`.
-/

set_option maxRecDepth 10000

/-- JavaScript whitespace characters relevant to `String.prototype.trim`
(ASCII subset; the scripts only ever trim user keyboard input). -/
def isJsSpace (c : Char) : Bool :=
  c = ' ' || c = '\t' || c = '\n' || c = '\r' || c = '\x0b' || c = '\x0c'

/-- Embedding of JavaScript `String.prototype.trim` on character lists. -/
def jsTrim (l : List Char) : List Char :=
  ((l.dropWhile isJsSpace).reverse.dropWhile isJsSpace).reverse

/-- Embedding of JavaScript `s.trim()` on strings. -/
def jsTrimS (s : String) : String :=
  ⟨jsTrim s.data⟩

/-- Embedding of the JavaScript expression `x || ""` for a possibly
`undefined` string `x` (both `undefined` and `""` are falsy). -/
def jsOrBlank (x : Option String) : String :=
  match x with
  | none => ""
  | some s => s

/-- Embedding of JavaScript template interpolation `${x}` for a possibly
`undefined` string `x`: `undefined` prints as the text `undefined`. -/
def jsInterp (x : Option String) : String :=
  match x with
  | none => "undefined"
  | some s => s

/-- Embedding of JavaScript `${b}` for a boolean. -/
def jsBool (b : Bool) : String :=
  match b with
  | true => "true"
  | false => "false"

/-- Split a character list at every occurrence of `sep`, keeping empty
pieces, as JavaScript `String.prototype.split` with a one-character
separator does (`"a,,b".split(",")` is `["a","","b"]`). -/
def splitOnCharJs (sep : Char) : List Char → List (List Char)
  | [] => [[]]
  | c :: rest =>
    if c = sep then [] :: splitOnCharJs sep rest
    else
      match splitOnCharJs sep rest with
      | [] => [[c]]
      | p :: ps => (c :: p) :: ps

/-- Join pieces back with a single separator character between them. -/
def joinWithChar (sep : Char) : List (List Char) → List Char
  | [] => []
  | [p] => p
  | p :: ps => p ++ sep :: joinWithChar sep ps

theorem splitOnCharJs_ne_nil (sep : Char) (l : List Char) :
    splitOnCharJs sep l ≠ [] := by
  cases l with
  | nil => simp [splitOnCharJs]
  | cons c rest =>
    simp only [splitOnCharJs]
    split
    · simp
    · cases h : splitOnCharJs sep rest <;> simp

theorem joinWithChar_splitOnCharJs (sep : Char) (l : List Char) :
    joinWithChar sep (splitOnCharJs sep l) = l := by
  induction l with
  | nil => rfl
  | cons c rest ih =>
    simp only [splitOnCharJs]
    split
    · rename_i hc
      cases h : splitOnCharJs sep rest with
      | nil => exact absurd h (splitOnCharJs_ne_nil sep rest)
      | cons p ps =>
        rw [h] at ih
        simp [joinWithChar, ih, hc]
    · rename_i hc
      cases h : splitOnCharJs sep rest with
      | nil => exact absurd h (splitOnCharJs_ne_nil sep rest)
      | cons p ps =>
        rw [h] at ih
        cases ps with
        | nil => simp_all [joinWithChar]
        | cons q qs => simp_all [joinWithChar]

theorem length_splitOnCharJs (sep : Char) (l : List Char) :
    (splitOnCharJs sep l).length = l.count sep + 1 := by
  induction l with
  | nil => simp [splitOnCharJs]
  | cons c rest ih =>
    simp only [splitOnCharJs]
    split
    · rename_i hc
      subst hc
      simp [List.count_cons, ih]
    · rename_i hc
      cases h : splitOnCharJs sep rest with
      | nil => exact absurd h (splitOnCharJs_ne_nil sep rest)
      | cons p ps =>
        rw [h] at ih
        simp only [List.length_cons] at ih
        simp [List.count_cons, hc, ih]

/-- If `sep` does not occur in `l`, splitting yields the single piece `l`. -/
theorem splitOnCharJs_of_not_mem (sep : Char) (l : List Char)
    (h : sep ∉ l) : splitOnCharJs sep l = [l] := by
  induction l with
  | nil => rfl
  | cons c rest ih =>
    simp only [List.mem_cons, not_or] at h
    simp only [splitOnCharJs]
    rw [if_neg (fun hcs => h.1 hcs.symm)]
    rw [ih h.2]

/-- Splitting a list that starts with a separator-free piece followed by a
separator peels off exactly that piece. -/
theorem splitOnCharJs_append (sep : Char) (xs ys : List Char)
    (h : sep ∉ xs) :
    splitOnCharJs sep (xs ++ sep :: ys) = xs :: splitOnCharJs sep ys := by
  induction xs with
  | nil => simp [splitOnCharJs]
  | cons c rest ih =>
    simp only [List.mem_cons, not_or] at h
    simp only [List.cons_append, splitOnCharJs]
    rw [if_neg (fun hcs => h.1 hcs.symm)]
    simp only [List.append_eq]
    rw [ih h.2]

/-- The lines of a text: split at every newline character. -/
def textLines (l : List Char) : List (List Char) :=
  splitOnCharJs '\n' l

/-- Join a list of lines, terminating every line with a newline. -/
def joinNL : List (List Char) → List Char
  | [] => []
  | l :: ls => l ++ '\n' :: joinNL ls

theorem joinNL_append (xs ys : List (List Char)) :
    joinNL (xs ++ ys) = joinNL xs ++ joinNL ys := by
  induction xs with
  | nil => rfl
  | cons l ls ih => simp [joinNL, ih]

theorem textLines_of_not_mem (l : List Char) (h : '\n' ∉ l) :
    textLines l = [l] :=
  splitOnCharJs_of_not_mem '\n' l h

theorem textLines_joinNL (ls : List (List Char)) (final : List Char)
    (h : ∀ l ∈ ls, '\n' ∉ l) (hf : '\n' ∉ final) :
    textLines (joinNL ls ++ final) = ls ++ [final] := by
  induction ls with
  | nil => simpa [joinNL] using textLines_of_not_mem final hf
  | cons l ls ih =>
    have h1 : '\n' ∉ l := h l (by simp)
    have h2 : ∀ x ∈ ls, '\n' ∉ x := fun x hx => h x (by simp [hx])
    simp only [joinNL, List.cons_append, List.append_assoc]
    unfold textLines
    rw [splitOnCharJs_append '\n' l (joinNL ls ++ final) h1]
    rw [show splitOnCharJs '\n' (joinNL ls ++ final) = textLines (joinNL ls ++ final) from rfl]
    rw [ih h2]

/-- Hexadecimal digit characters, ten digits then `a`-`f`. -/
def hexDigits : List Char :=
  (List.range 10).map (fun n => Char.ofNat (48 + n)) ++
    (List.range 6).map (fun n => Char.ofNat (97 + n))

def hexDigit (n : Nat) : Char :=
  hexDigits.getD n '0'

/-- Embedding of the escaping `JSON.stringify` applies to one character of
a string element. -/
def jsonEscapeChar (c : Char) : List Char :=
  if c = '\x22' then ['\\', '\x22']
  else if c = '\\' then ['\\', '\\']
  else if c = '\n' then ['\\', 'n']
  else if c = '\r' then ['\\', 'r']
  else if c = '\t' then ['\\', 't']
  else if c = '\x08' then ['\\', 'b']
  else if c = '\x0c' then ['\\', 'f']
  else if c.toNat < 32 then
    ['\\', 'u', '0', '0', hexDigit (c.toNat / 16), hexDigit (c.toNat % 16)]
  else [c]

/-- Embedding of the escaping `JSON.stringify` applies to a whole string. -/
def jsonEscape (s : String) : String :=
  ⟨(s.data.map jsonEscapeChar).flatten⟩

theorem hexDigit_ne_newline (n : Nat) : hexDigit n ≠ '\n' := by
  unfold hexDigit List.getD
  cases h : hexDigits.get? n with
  | none => simp
  | some x =>
    have hx : x ∈ hexDigits := List.get?_mem h
    simp only [Option.getD_some]
    intro hc
    rw [hc] at hx
    have hno : '\n' ∉ hexDigits := by decide
    exact hno hx

theorem newline_not_mem_jsonEscapeChar (c : Char) : '\n' ∉ jsonEscapeChar c := by
  unfold jsonEscapeChar
  by_cases h1 : c = '\x22'
  · simp [h1]
  by_cases h2 : c = '\\'
  · simp [h1, h2]
  by_cases h3 : c = '\n'
  · simp [h1, h2, h3]
  by_cases h4 : c = '\r'
  · simp [h1, h2, h3, h4]
  by_cases h5 : c = '\t'
  · simp [h1, h2, h3, h4, h5]
  by_cases h6 : c = '\x08'
  · simp [h1, h2, h3, h4, h5, h6]
  by_cases h7 : c = '\x0c'
  · simp [h1, h2, h3, h4, h5, h6, h7]
  by_cases h8 : c.toNat < 32
  · simp only [h1, h2, h3, h4, h5, h6, h7, h8, if_neg, if_pos, if_false, if_true]
    intro hc
    simp only [List.mem_cons, List.not_mem_nil, or_false] at hc
    rcases hc with hc | hc | hc | hc | hc | hc <;>
      first
        | exact absurd hc.symm (by decide)
        | exact absurd hc.symm (hexDigit_ne_newline _)
  · simp only [h1, h2, h3, h4, h5, h6, h7, h8, if_neg, if_false]
    intro hc
    simp only [List.mem_cons, List.not_mem_nil, or_false] at hc
    exact h3 hc.symm

theorem newline_not_mem_jsonEscape (s : String) : '\n' ∉ (jsonEscape s).data := by
  unfold jsonEscape
  intro hc
  simp only [List.mem_flatten] at hc
  obtain ⟨l, hl, hcl⟩ := hc
  simp only [List.mem_map] at hl
  obtain ⟨c, _, rfl⟩ := hl
  exact newline_not_mem_jsonEscapeChar c hcl

/-- One pretty-printed element of a stringified array: two spaces of
indentation and the escaped element in double quotes. -/
def jsonElement (t : String) : String :=
  "  \x22" ++ jsonEscape t ++ "\x22"

def jsonElems : List String → String
  | [] => ""
  | [t] => jsonElement t
  | t :: t' :: ts => jsonElement t ++ ",\n" ++ jsonElems (t' :: ts)

/-- Embedding of `JSON.stringify(arr, null, 2)` for an array of strings:
`[]` for the empty array, otherwise one bracketed element per line. -/
def jsonStringify2 : List String → String
  | [] => "[]"
  | t :: ts => "[\n" ++ jsonElems (t :: ts) ++ "\n]"

/-- The individual text lines of the pretty-printed element list. -/
def tagElemLines : List String → List (List Char)
  | [] => []
  | [t] => [(jsonElement t).data]
  | t :: t' :: ts => (jsonElement t ++ ",").data :: tagElemLines (t' :: ts)

/-- The individual text lines of the emitted `tags:` block. -/
def tagLines : List String → List (List Char)
  | [] => [("tags: []").data]
  | t :: ts => ("tags: [").data :: (tagElemLines (t :: ts) ++ [("]").data])

theorem jsonElems_data (t : String) (ts : List String) :
    (jsonElems (t :: ts)).data ++ '\n' :: (']' :: ['\n']) =
      joinNL (tagElemLines (t :: ts) ++ [("]").data]) := by
  induction ts generalizing t with
  | nil =>
    simp [jsonElems, tagElemLines, joinNL]
  | cons t' ts ih =>
    have ih' := ih t'
    simp only [jsonElems, tagElemLines, joinNL, List.cons_append, String.data_append,
      List.append_eq] at ih' ⊢
    rw [← ih']
    simp

theorem tags_chunk_eq_joinNL (ts : List String) :
    ("tags: " ++ jsonStringify2 ts ++ "\n").data = joinNL (tagLines ts) := by
  cases ts with
  | nil => simp [jsonStringify2, tagLines, joinNL, String.data_append]
  | cons t ts =>
    have h := jsonElems_data t ts
    simp only [jsonStringify2, tagLines, joinNL, String.data_append, List.append_eq,
      List.cons_append] at h ⊢
    rw [← h]
    simp

theorem newline_not_mem_tagElemLines (ts : List String) :
    ∀ l ∈ tagElemLines ts, '\n' ∉ l := by
  induction ts with
  | nil => simp [tagElemLines]
  | cons t ts ih =>
    cases ts with
    | nil =>
      intro l hl
      simp only [tagElemLines, List.mem_singleton] at hl
      subst hl
      simp only [jsonElement, String.data_append]
      intro hc
      rcases List.mem_append.mp hc with hc | hc
      · rcases List.mem_append.mp hc with hc | hc
        · simp at hc
        · exact newline_not_mem_jsonEscape t hc
      · simp at hc
    | cons t' ts' =>
      intro l hl
      simp only [tagElemLines, List.mem_cons] at hl
      rcases hl with hl | hl
      · subst hl
        simp only [jsonElement, String.data_append]
        intro hc
        rcases List.mem_append.mp hc with hc | hc
        · rcases List.mem_append.mp hc with hc | hc
          · rcases List.mem_append.mp hc with hc | hc
            · simp at hc
            · exact newline_not_mem_jsonEscape t hc
          · simp at hc
        · simp at hc
      · exact ih l hl

theorem newline_not_mem_tagLines (ts : List String) :
    ∀ l ∈ tagLines ts, '\n' ∉ l := by
  cases ts with
  | nil =>
    intro l hl
    simp only [tagLines, List.mem_singleton] at hl
    subst hl
    decide
  | cons t ts =>
    intro l hl
    simp only [tagLines, List.mem_cons, List.mem_append, List.mem_singleton] at hl
    rcases hl with hl | hl | hl
    · subst hl; decide
    · exact newline_not_mem_tagElemLines (t :: ts) l hl
    · rcases hl with hl | hl
      · subst hl; decide
      · simp at hl

/-- Every line of the `tags:` block is the bracket header, the closing
bracket, or an indented quoted element. -/
theorem tagLines_shape (ts : List String) :
    ∀ l ∈ tagLines ts,
      l = ("tags: []").data ∨ l = ("tags: [").data ∨ l = ("]").data ∨
        ∃ r, l = ' ' :: ' ' :: '\x22' :: r := by
  have helem : ∀ us, ∀ l ∈ tagElemLines us, ∃ r, l = ' ' :: ' ' :: '\x22' :: r := by
    intro us
    induction us with
    | nil => simp [tagElemLines]
    | cons t ts ih =>
      cases ts with
      | nil =>
        intro l hl
        simp only [tagElemLines, List.mem_singleton] at hl
        subst hl
        exact ⟨(jsonEscape t).data ++ ['\x22'], by simp [jsonElement, String.data_append]⟩
      | cons t' ts' =>
        intro l hl
        simp only [tagElemLines, List.mem_cons] at hl
        rcases hl with hl | hl
        · subst hl
          exact ⟨(jsonEscape t).data ++ ['\x22', ','],
            by simp [jsonElement, String.data_append]⟩
        · exact ih l hl
  cases ts with
  | nil =>
    intro l hl
    simp only [tagLines, List.mem_singleton] at hl
    exact Or.inl hl
  | cons t ts =>
    intro l hl
    simp only [tagLines, List.mem_cons, List.mem_append, List.mem_singleton] at hl
    rcases hl with hl | hl | hl
    · exact Or.inr (Or.inl hl)
    · exact Or.inr (Or.inr (Or.inr (helem (t :: ts) l hl)))
    · rcases hl with hl | hl
      · exact Or.inr (Or.inr (Or.inl hl))
      · simp at hl

/-- A character admissible inside a slug: a lowercase ASCII letter or an
ASCII digit. -/
def slugChar (c : Char) : Bool :=
  (97 ≤ c.toNat && c.toNat ≤ 122) || (48 ≤ c.toNat && c.toNat ≤ 57)

/-- ASCII lowercasing of one character. -/
def lowerChar (c : Char) : Char :=
  if 65 ≤ c.toNat && c.toNat ≤ 90 then Char.ofNat (c.toNat + 32) else c

/-- Modelled from the spec: the `slugify` npm package, called by every
variant as `slugify(title, { lower: true })`, is an external dependency
whose implementation is not part of the repository sources.  Section 4.1 of
the specification describes the slug generator as lowercasing, replacing
runs of characters outside `[a-z0-9]` with single hyphens, and trimming
leading and trailing hyphens.  This is the per-character mapping: lowercase
the character and keep it when admissible, else mark it as a hyphen. -/
def slugMapChar (c : Char) : Char :=
  if slugChar (lowerChar c) then lowerChar c else '-'

theorem length_dropWhileBool_le (p : Char → Bool) (l : List Char) :
    (l.dropWhile p).length ≤ l.length := by
  induction l with
  | nil => simp [List.dropWhile]
  | cons c rest ih =>
    simp only [List.dropWhile]
    split
    · exact Nat.le_succ_of_le ih
    · exact Nat.le_refl _

/-- Modelled from the spec: the maximal hyphen-free words of a character
list, in order, dropping empty runs (this collapses hyphen runs). -/
def hyphenWords : List Char → List (List Char)
  | [] => []
  | c :: rest =>
    if c = '-' then hyphenWords rest
    else (c :: rest.takeWhile (fun d => d ≠ '-')) ::
      hyphenWords (rest.dropWhile (fun d => d ≠ '-'))
termination_by l => l.length
decreasing_by
  · simp
  · simp only [List.length_cons]
    exact Nat.lt_succ_of_le (length_dropWhileBool_le _ rest)

/-- Join words with single separating hyphens (no leading or trailing
hyphen). -/
def joinHyphen : List (List Char) → List Char
  | [] => []
  | [w] => w
  | w :: w' :: ws => w ++ '-' :: joinHyphen (w' :: ws)

/-- Modelled from the spec (section 4.1): the slug generator. -/
def slugify (s : String) : String :=
  ⟨joinHyphen (hyphenWords (s.data.map slugMapChar))⟩

/-- No two adjacent hyphens occur in the list. -/
def noDoubleHyphen : List Char → Bool
  | [] => true
  | [_] => true
  | a :: b :: t => !(a = '-' && b = '-') && noDoubleHyphen (b :: t)

theorem slugChar_lowerChar (c : Char) (h : slugChar c = true) :
    lowerChar c = c := by
  simp only [slugChar, Bool.or_eq_true, Bool.and_eq_true, decide_eq_true_eq] at h
  unfold lowerChar
  rw [if_neg]
  simp only [Bool.and_eq_true, decide_eq_true_eq, not_and]
  omega

theorem slugMapChar_fixed (c : Char) (h : slugChar c = true) :
    slugMapChar c = c := by
  unfold slugMapChar
  rw [slugChar_lowerChar c h, if_pos h]

theorem slugMapChar_hyphen_fixed : slugMapChar '-' = '-' := by decide

theorem slugMapChar_cases (c : Char) :
    slugChar (slugMapChar c) = true ∨ slugMapChar c = '-' := by
  unfold slugMapChar
  split
  · rename_i h
    exact Or.inl h
  · exact Or.inr rfl

theorem mem_takeWhileBool (p : Char → Bool) (l : List Char) :
    ∀ a ∈ l.takeWhile p, p a = true ∧ a ∈ l := by
  induction l with
  | nil => simp [List.takeWhile]
  | cons c rest ih =>
    intro a ha
    simp only [List.takeWhile] at ha
    rcases hpc : p c with h | h
    · rw [hpc] at ha
      simp at ha
    · rw [hpc] at ha
      simp only [List.mem_cons] at ha
      rcases ha with rfl | ha
      · exact ⟨hpc, by simp⟩
      · obtain ⟨h1, h2⟩ := ih a ha
        exact ⟨h1, by simp [h2]⟩

theorem mem_dropWhileBool (p : Char → Bool) (l : List Char) :
    ∀ a ∈ l.dropWhile p, a ∈ l := by
  induction l with
  | nil => simp [List.dropWhile]
  | cons c rest ih =>
    intro a ha
    simp only [List.dropWhile] at ha
    rcases hpc : p c with h | h
    · rw [hpc] at ha
      simp only [List.mem_cons] at ha ⊢
      tauto
    · rw [hpc] at ha
      simp only [List.mem_cons]
      exact Or.inr (ih a ha)

theorem takeWhileBool_eq_self (p : Char → Bool) (l : List Char)
    (h : ∀ d ∈ l, p d = true) : l.takeWhile p = l := by
  induction l with
  | nil => rfl
  | cons c rest ih =>
    simp only [List.takeWhile, h c (by simp)]
    rw [ih (fun d hd => h d (by simp [hd]))]

theorem dropWhileBool_eq_nil (p : Char → Bool) (l : List Char)
    (h : ∀ d ∈ l, p d = true) : l.dropWhile p = [] := by
  induction l with
  | nil => rfl
  | cons c rest ih =>
    simp only [List.dropWhile, h c (by simp)]
    exact ih (fun d hd => h d (by simp [hd]))

theorem takeWhileBool_append_stop (p : Char → Bool) (w t : List Char)
    (x : Char) (hw : ∀ d ∈ w, p d = true) (hx : p x = false) :
    (w ++ x :: t).takeWhile p = w := by
  induction w with
  | nil => simp [List.takeWhile, hx]
  | cons c rest ih =>
    simp only [List.cons_append, List.takeWhile, hw c (by simp)]
    simp only [List.append_eq]
    rw [ih (fun d hd => hw d (by simp [hd]))]

theorem dropWhileBool_append_stop (p : Char → Bool) (w t : List Char)
    (x : Char) (hw : ∀ d ∈ w, p d = true) (hx : p x = false) :
    (w ++ x :: t).dropWhile p = x :: t := by
  induction w with
  | nil => simp [List.dropWhile, hx]
  | cons c rest ih =>
    simp only [List.cons_append, List.dropWhile, hw c (by simp)]
    simp only [List.append_eq]
    exact ih (fun d hd => hw d (by simp [hd]))

theorem hyphenWords_spec (l : List Char) :
    ∀ w ∈ hyphenWords l, w ≠ [] ∧ ∀ d ∈ w, d ≠ '-' ∧ d ∈ l := by
  induction l using hyphenWords.induct with
  | case1 => simp [hyphenWords]
  | case2 rest ih =>
    intro w hw
    rw [show hyphenWords ('-' :: rest) = hyphenWords rest from by
      simp [hyphenWords]] at hw
    obtain ⟨h1, h2⟩ := ih w hw
    exact ⟨h1, fun d hd => ⟨(h2 d hd).1, by simp [(h2 d hd).2]⟩⟩
  | case3 c rest hne ih =>
    intro w hw
    rw [show hyphenWords (c :: rest) =
        (c :: rest.takeWhile (fun d => d ≠ '-')) ::
          hyphenWords (rest.dropWhile (fun d => d ≠ '-')) from by
      simp [hyphenWords, hne]] at hw
    rcases List.mem_cons.mp hw with rfl | hw
    · refine ⟨by simp, ?_⟩
      intro d hd
      rcases List.mem_cons.mp hd with rfl | hd
      · exact ⟨hne, by simp⟩
      · have hm := mem_takeWhileBool _ rest d hd
        exact ⟨by simpa using hm.1, by simp [hm.2]⟩
    · obtain ⟨h1, h2⟩ := ih w hw
      refine ⟨h1, fun d hd => ⟨(h2 d hd).1, ?_⟩⟩
      have := mem_dropWhileBool (fun d => decide (d ≠ '-')) rest d (h2 d hd).2
      simp [this]

theorem joinHyphen_ne_nil (w : List Char) (ws : List (List Char))
    (h : w ≠ []) : joinHyphen (w :: ws) ≠ [] := by
  cases ws with
  | nil => simpa [joinHyphen] using h
  | cons w' ws' =>
    simp only [joinHyphen]
    intro hc
    rcases List.append_eq_nil.mp hc with ⟨h1, h2⟩
    simp at h2

theorem joinHyphen_chars (ws : List (List Char)) :
    ∀ c ∈ joinHyphen ws, (∃ w, w ∈ ws ∧ c ∈ w) ∨ c = '-' := by
  induction ws with
  | nil => simp [joinHyphen]
  | cons w ws ih =>
    cases ws with
    | nil =>
      intro c hc
      exact Or.inl ⟨w, by simp, by simpa [joinHyphen] using hc⟩
    | cons w' ws' =>
      intro c hc
      simp only [joinHyphen] at hc
      rcases List.mem_append.mp hc with hc | hc
      · exact Or.inl ⟨w, by simp, hc⟩
      · rcases List.mem_cons.mp hc with rfl | hc
        · exact Or.inr rfl
        · rcases ih c hc with ⟨u, hu, hcu⟩ | h
          · exact Or.inl ⟨u, by simp [hu], hcu⟩
          · exact Or.inr h

theorem joinHyphen_head (ws : List (List Char)) (h : ∀ w ∈ ws, w ≠ [])
    (hh : ∀ w ∈ ws, '-' ∉ w) : (joinHyphen ws).head? ≠ some '-' := by
  cases ws with
  | nil => simp [joinHyphen]
  | cons w ws =>
    have hw : w ≠ [] := h w (by simp)
    have hw2 : '-' ∉ w := hh w (by simp)
    cases w with
    | nil => exact absurd rfl hw
    | cons a w' =>
      have ha : a ≠ '-' := fun hha => hw2 (by simp [hha])
      cases ws with
      | nil => simp [joinHyphen, ha]
      | cons w'' ws'' => simp [joinHyphen, ha]

theorem getLast?_append_right (xs ys : List Char) (h : ys ≠ []) :
    (xs ++ ys).getLast? = ys.getLast? := by
  rw [List.getLast?_eq_head?_reverse, List.getLast?_eq_head?_reverse,
    List.reverse_append]
  cases hys : ys.reverse with
  | nil => exact absurd (by simpa using hys) h
  | cons a t => simp

theorem joinHyphen_getLast (ws : List (List Char)) (h : ∀ w ∈ ws, w ≠ [])
    (hh : ∀ w ∈ ws, '-' ∉ w) : (joinHyphen ws).getLast? ≠ some '-' := by
  induction ws with
  | nil => simp [joinHyphen]
  | cons w ws ih =>
    cases ws with
    | nil =>
      simp only [joinHyphen]
      have hw2 : '-' ∉ w := hh w (by simp)
      intro hc
      exact hw2 (List.mem_of_mem_getLast? hc)
    | cons w' ws' =>
      simp only [joinHyphen]
      have hw' : w' ≠ [] := h w' (by simp)
      have hJ : joinHyphen (w' :: ws') ≠ [] := joinHyphen_ne_nil w' ws' hw'
      rw [getLast?_append_right w ('-' :: joinHyphen (w' :: ws')) (by simp)]
      rw [show ('-' :: joinHyphen (w' :: ws')) = ['-'] ++ joinHyphen (w' :: ws')
        from rfl]
      rw [getLast?_append_right ['-'] (joinHyphen (w' :: ws')) hJ]
      exact ih (fun u hu => h u (by simp [hu])) (fun u hu => hh u (by simp [hu]))

theorem noDoubleHyphen_append (w r : List Char) (hw : '-' ∉ w)
    (hr : noDoubleHyphen r = true) : noDoubleHyphen (w ++ r) = true := by
  induction w with
  | nil => simpa using hr
  | cons x w' ih =>
    have hx : x ≠ '-' := fun hc => hw (by simp [hc])
    have hw' : '-' ∉ w' := fun hc => hw (by simp [hc])
    cases w' with
    | nil =>
      cases r with
      | nil => simp [noDoubleHyphen]
      | cons b t =>
        simp only [List.nil_append, List.cons_append, noDoubleHyphen]
        simp [hx, hr]
    | cons y w'' =>
      have hy : y ≠ '-' := fun hc => hw' (by simp [hc])
      simp only [List.cons_append, noDoubleHyphen]
      refine (Bool.and_eq_true _ _).mpr ⟨by simp [hx], ?_⟩
      simpa using ih hw'

theorem noDoubleHyphen_joinHyphen (ws : List (List Char))
    (h : ∀ w ∈ ws, w ≠ []) (hh : ∀ w ∈ ws, '-' ∉ w) :
    noDoubleHyphen (joinHyphen ws) = true := by
  induction ws with
  | nil => simp [joinHyphen, noDoubleHyphen]
  | cons w ws ih =>
    cases ws with
    | nil =>
      simp only [joinHyphen]
      have hw2 : '-' ∉ w := hh w (by simp)
      have : noDoubleHyphen (w ++ []) = true :=
        noDoubleHyphen_append w [] hw2 (by simp [noDoubleHyphen])
      simpa using this
    | cons w' ws' =>
      simp only [joinHyphen]
      have hw2 : '-' ∉ w := hh w (by simp)
      have hw' : w' ≠ [] := h w' (by simp)
      have hJ : joinHyphen (w' :: ws') ≠ [] := joinHyphen_ne_nil w' ws' hw'
      have hJh : (joinHyphen (w' :: ws')).head? ≠ some '-' :=
        joinHyphen_head (w' :: ws') (fun u hu => h u (by simp [hu]))
          (fun u hu => hh u (by simp [hu]))
      have hJd : noDoubleHyphen (joinHyphen (w' :: ws')) = true :=
        ih (fun u hu => h u (by simp [hu])) (fun u hu => hh u (by simp [hu]))
      refine noDoubleHyphen_append w ('-' :: joinHyphen (w' :: ws')) hw2 ?_
      cases hJc : joinHyphen (w' :: ws') with
      | nil => exact absurd hJc hJ
      | cons b t =>
        rw [hJc] at hJd hJh
        simp only [noDoubleHyphen]
        have hb : b ≠ '-' := by
          intro hc
          exact hJh (by simp [hc])
        simp [hb, hJd]

theorem hyphenWords_joinHyphen (ws : List (List Char))
    (h : ∀ w ∈ ws, w ≠ [] ∧ '-' ∉ w) :
    hyphenWords (joinHyphen ws) = ws := by
  induction ws with
  | nil => simp [joinHyphen, hyphenWords]
  | cons w ws ih =>
    obtain ⟨hw, hw2⟩ := h w (by simp)
    cases w with
    | nil => exact absurd rfl hw
    | cons a w' =>
      have ha : a ≠ '-' := fun hc => hw2 (by simp [hc])
      have hw2' : ∀ d ∈ w', (fun d => decide (d ≠ '-')) d = true := by
        intro d hd
        simp only [decide_eq_true_eq]
        intro hc
        exact hw2 (by simp [hc ▸ hd])
      cases ws with
      | nil =>
        simp only [joinHyphen]
        rw [show hyphenWords (a :: w') =
            (a :: w'.takeWhile (fun d => d ≠ '-')) ::
              hyphenWords (w'.dropWhile (fun d => d ≠ '-')) from by
          simp [hyphenWords, ha]]
        rw [takeWhileBool_eq_self _ w' hw2', dropWhileBool_eq_nil _ w' hw2']
        simp [hyphenWords]
      | cons u us =>
        simp only [joinHyphen, List.cons_append]
        rw [show hyphenWords (a :: (w' ++ '-' :: joinHyphen (u :: us))) =
            (a :: (w' ++ '-' :: joinHyphen (u :: us)).takeWhile
                (fun d => d ≠ '-')) ::
              hyphenWords ((w' ++ '-' :: joinHyphen (u :: us)).dropWhile
                (fun d => d ≠ '-')) from by
          simp [hyphenWords, ha]]
        rw [takeWhileBool_append_stop _ w' (joinHyphen (u :: us)) '-' hw2'
          (by decide)]
        rw [dropWhileBool_append_stop _ w' (joinHyphen (u :: us)) '-' hw2'
          (by decide)]
        rw [show hyphenWords ('-' :: joinHyphen (u :: us)) =
            hyphenWords (joinHyphen (u :: us)) from by simp [hyphenWords]]
        rw [ih (fun v hv => h v (by simp [hv]))]

theorem map_eq_self_of_fixed (f : Char → Char) (l : List Char)
    (h : ∀ c ∈ l, f c = c) : l.map f = l := by
  induction l with
  | nil => rfl
  | cons c rest ih =>
    simp [h c (by simp), ih (fun d hd => h d (by simp [hd]))]

theorem slugify_data (s : String) :
    (slugify s).data = joinHyphen (hyphenWords (s.data.map slugMapChar)) := rfl

theorem slugify_chars (s : String) :
    ∀ c ∈ (slugify s).data, slugChar c = true ∨ c = '-' := by
  intro c hc
  rw [slugify_data] at hc
  rcases joinHyphen_chars _ c hc with ⟨w, hw, hcw⟩ | h
  · obtain ⟨_, h2⟩ := hyphenWords_spec _ w hw
    obtain ⟨hne, hmem⟩ := h2 c hcw
    rcases List.mem_map.mp hmem with ⟨d, _, rfl⟩
    rcases slugMapChar_cases d with h | h
    · exact Or.inl h
    · exact absurd h hne
  · exact Or.inr h

theorem hyphenWords_words_ok (l : List Char) :
    ∀ w ∈ hyphenWords l, w ≠ [] ∧ '-' ∉ w := by
  intro w hw
  obtain ⟨h1, h2⟩ := hyphenWords_spec l w hw
  exact ⟨h1, fun hc => (h2 '-' hc).1 rfl⟩

theorem slugify_idem (s : String) : slugify (slugify s) = slugify s := by
  apply String.ext
  have hfix : ∀ c ∈ (slugify s).data, slugMapChar c = c := by
    intro c hc
    rcases slugify_chars s c hc with h | h
    · exact slugMapChar_fixed c h
    · rw [h]; exact slugMapChar_hyphen_fixed
  show joinHyphen (hyphenWords ((slugify s).data.map slugMapChar)) = (slugify s).data
  rw [map_eq_self_of_fixed _ _ hfix]
  rw [slugify_data]
  rw [hyphenWords_joinHyphen _ (hyphenWords_words_ok _)]

example : slugify "A test post" = "a-test-post" := by
  apply String.ext
  show joinHyphen (hyphenWords (("A test post").data.map slugMapChar)) =
    ("a-test-post").data
  rw [show ("A test post").data.map slugMapChar = ("a-test-post").data
    from by decide]
  simp [hyphenWords, joinHyphen, List.takeWhile, List.dropWhile]

/-- C3: the slug function used for filenames and default image names is
idempotent (`slugify (slugify x) = slugify x` for every text `x`) and
total, and for every text input its output contains only lowercase
alphanumerics and single interior hyphens, with no leading or trailing
hyphen. -/
theorem c3_slugify_idempotent_total (s : String) :
    slugify (slugify s) = slugify s ∧
      (∀ c ∈ (slugify s).data, slugChar c = true ∨ c = '-') ∧
      (slugify s).data.head? ≠ some '-' ∧
      (slugify s).data.getLast? ≠ some '-' ∧
      noDoubleHyphen (slugify s).data = true := by
  refine ⟨slugify_idem s, slugify_chars s, ?_, ?_, ?_⟩
  · rw [slugify_data]
    exact joinHyphen_head _ (fun w hw => (hyphenWords_words_ok _ w hw).1)
      (fun w hw => (hyphenWords_words_ok _ w hw).2)
  · rw [slugify_data]
    exact joinHyphen_getLast _ (fun w hw => (hyphenWords_words_ok _ w hw).1)
      (fun w hw => (hyphenWords_words_ok _ w hw).2)
  · rw [slugify_data]
    exact noDoubleHyphen_joinHyphen _
      (fun w hw => (hyphenWords_words_ok _ w hw).1)
      (fun w hw => (hyphenWords_words_ok _ w hw).2)

/-- Regular expressions over characters: empty language, empty word,
character class, concatenation, alternation, Kleene star.  Used to embed
the `RegExp` the scripts build for validating `creditLink`. -/
inductive RE where
  | fail
  | eps
  | cls (cs : List Char)
  | cat (a b : RE)
  | alt (a b : RE)
  | star (a : RE)

def RE.nullable : RE → Bool
  | .fail => false
  | .eps => true
  | .cls _ => false
  | .cat a b => a.nullable && b.nullable
  | .alt a b => a.nullable || b.nullable
  | .star _ => true

/-- Concatenation with basic simplification (keeps derivatives small). -/
def RE.mkCat : RE → RE → RE
  | .fail, _ => .fail
  | .eps, b => b
  | a, b =>
    match b with
    | .fail => .fail
    | .eps => a
    | _ => .cat a b

/-- Alternation with basic simplification (keeps derivatives small). -/
def RE.mkAlt : RE → RE → RE
  | .fail, b => b
  | a, b =>
    match b with
    | .fail => a
    | _ => .alt a b

/-- Brzozowski derivative of a regular expression by one character. -/
def RE.deriv : RE → Char → RE
  | .fail, _ => .fail
  | .eps, _ => .fail
  | .cls cs, c => if c ∈ cs then .eps else .fail
  | .cat a b, c =>
    if a.nullable then .mkAlt (.mkCat (a.deriv c) b) (b.deriv c)
    else .mkCat (a.deriv c) b
  | .alt a b, c => .mkAlt (a.deriv c) (b.deriv c)
  | .star a, c => .mkCat (a.deriv c) (.star a)

/-- Acceptance of a word by the derivative method. -/
def RE.accepts (r : RE) (l : List Char) : Bool :=
  (l.foldl RE.deriv r).nullable

def RE.opt (r : RE) : RE := .alt .eps r

def RE.plus (r : RE) : RE := .cat r (.star r)

def RE.str (s : String) : RE :=
  s.data.foldr (fun c acc => RE.cat (RE.cls [c]) acc) RE.eps

def charRange (a b : Nat) : List Char :=
  (List.range (b + 1 - a)).map (fun i => Char.ofNat (a + i))

def lowerAlphaChars : List Char := charRange 97 122

def digitChars : List Char := charRange 48 57

def alnumChars : List Char := lowerAlphaChars ++ digitChars

/-- `[a-z\d]([a-z\d-]*[a-z\d])*`: one label of the domain part. -/
def urlLabel : RE :=
  .cat (.cls alnumChars)
    (.star (.cat (.star (.cls (alnumChars ++ ['-']))) (.cls alnumChars)))

/-- `(https?:\/\/)?`. -/
def urlProtocol : RE :=
  .opt (.cat (.str "http") (.cat (.opt (.str "s")) (.str "://")))

/-- `((([a-z\d]([a-z\d-]*[a-z\d])*)\.?)+[a-z]{2,}`. -/
def urlDomain : RE :=
  .cat (.plus (.cat urlLabel (.opt (.str "."))))
    (.cat (.cls lowerAlphaChars) (.plus (.cls lowerAlphaChars)))

/-- `\d{1,3}`. -/
def urlOctet : RE :=
  .cat (.cls digitChars) (.cat (.opt (.cls digitChars)) (.opt (.cls digitChars)))

/-- `(\d{1,3}\.){3}\d{1,3}`. -/
def urlIpv4 : RE :=
  .cat (.cat urlOctet (.str "."))
    (.cat (.cat urlOctet (.str "."))
      (.cat (.cat urlOctet (.str ".")) urlOctet))

/-- `(\:\d+)?`. -/
def urlPort : RE := .opt (.cat (.str ":") (.plus (.cls digitChars)))

/-- `(\/[-a-z\d%_.~+]*)*`. -/
def urlPath : RE :=
  .star (.cat (.str "/")
    (.star (.cls (['-'] ++ alnumChars ++ ['%', '_', '.', '~', '+']))))

/-- `(\?[;&a-z\d%_.~+=-]*)?`. -/
def urlQuery : RE :=
  .opt (.cat (.str "?")
    (.star (.cls ([';', '&'] ++ alnumChars ++ ['%', '_', '.', '~', '+', '=', '-']))))

/-- `(\#[-a-z\d_]*)?`. -/
def urlFrag : RE :=
  .opt (.cat (.str "#") (.star (.cls (['-'] ++ alnumChars ++ ['_']))))

/-- Embedding of the anchored credit-link pattern built by `promptUser`:
`^(https?:\/\/)?(domain|ipv4)(\:\d+)?(\/…)*(\?…)?(\#…)?$`. -/
def urlPattern : RE :=
  .cat urlProtocol
    (.cat (.alt urlDomain urlIpv4)
      (.cat urlPort (.cat urlPath (.cat urlQuery urlFrag))))

/-- Embedding of `urlPattern.test(input)`; the `i` flag is modelled by
lowercasing the input (the pattern itself only uses lowercase classes). -/
def urlTest (s : String) : Bool :=
  urlPattern.accepts (s.data.map lowerChar)

example : urlTest "https://linktojoe.com" = true := by decide

example : urlTest "not a url" = false := by decide

/-- The entry type chosen in the multi-entry-type variant D. -/
inductive EntryType where
  | Post
  | Note
  | TIL
deriving DecidableEq

/-- The single record of answers flowing through the pipeline.  Fields that
a given variant never asks keep their defaults; fields whose prompt can be
skipped (`when` guard) are `Option`s, `none` standing for JavaScript
`undefined`. -/
structure EntryAnswers where
  entryType : EntryType := .Post
  title : String := ""
  date : String := ""
  tags : Option String := none
  description : String := ""
  pageHasCode : Bool := false
  snow : Bool := false
  pageHasYoutube : Bool := false
  pageHasVideo : Bool := false
  hasImage : Bool := false
  imageSource : String := ""
  imageAlt : Option String := none
  creditPerson : Option String := none
  creditLink : Option String := none
deriving DecidableEq

/-- Embedding of
`answers.tags ? answers.tags.split(",").map((tag) => tag.trim()) : []`:
an absent or empty `tags` answer is falsy and yields the empty array. -/
def jsTagsArray (tags : Option String) : List String :=
  match tags with
  | none => []
  | some s =>
    if s = "" then []
    else (splitOnCharJs ',' s.data).map (fun p => (⟨jsTrim p⟩ : String))

/-- Embedding of `generateYamlContent` from variant A (src/mkbo.js, first
script).  Note the misspelled emission key `pageHapageHasYoutubesVideo` for
the `pageHasYoutube` flag, and the `answers.imageAlt || ""` coalescing. -/
def generateYamlContentA (answers : EntryAnswers) : String × String :=
  let slugifiedTitle := slugify answers.title
  let tagsArray := jsTagsArray answers.tags
  let yamlContent :=
    "---\ntitle: " ++ answers.title ++ "\ndescription: " ++
      answers.description ++ "\ndate: " ++ answers.date ++ "\ntags: " ++
      jsonStringify2 tagsArray ++ "\n"
  let yamlContent := if answers.pageHasCode then
      yamlContent ++ ("pageHasCode: " ++ jsBool answers.pageHasCode ++ "\n")
    else yamlContent
  let yamlContent := if answers.pageHasYoutube then
      yamlContent ++ ("pageHapageHasYoutubesVideo: " ++
        jsBool answers.pageHasYoutube ++ "\n")
    else yamlContent
  let yamlContent := if answers.snow then
      yamlContent ++ ("snow: " ++ jsBool answers.snow ++ "\n")
    else yamlContent
  let yamlContent := if jsTrimS answers.imageSource ≠ "" then
      yamlContent ++ ("image:\n  source: " ++ answers.imageSource ++
        "\n  alt: " ++ jsOrBlank answers.imageAlt ++ "\n")
    else yamlContent
  (yamlContent ++ "---", slugifiedTitle)

/-- Embedding of `generateYamlContent` from variant B (src/mkbo.js, second
script): correct `pageHasYoutube` key and a credit sub-block inside the
image block.  The source reads `answers.creditPerson.trim()`, which can only
be reached with a string value when the record comes from the prompts;
an absent `creditPerson` is modelled as the blank string (no credit). -/
def generateYamlContentB (answers : EntryAnswers) : String × String :=
  let slugifiedTitle := slugify answers.title
  let tagsArray := jsTagsArray answers.tags
  let yamlContent :=
    "---\ntitle: " ++ answers.title ++ "\ndescription: " ++
      answers.description ++ "\ndate: " ++ answers.date ++ "\ntags: " ++
      jsonStringify2 tagsArray ++ "\n"
  let yamlContent := if answers.pageHasCode then
      yamlContent ++ ("pageHasCode: " ++ jsBool answers.pageHasCode ++ "\n")
    else yamlContent
  let yamlContent := if answers.pageHasYoutube then
      yamlContent ++ ("pageHasYoutube: " ++ jsBool answers.pageHasYoutube ++ "\n")
    else yamlContent
  let yamlContent := if answers.snow then
      yamlContent ++ ("snow: " ++ jsBool answers.snow ++ "\n")
    else yamlContent
  let yamlContent := if jsTrimS answers.imageSource ≠ "" then
      yamlContent ++ ("image:\n  source: " ++ answers.imageSource ++
        "\n  alt: " ++ jsOrBlank answers.imageAlt ++ "\n") ++
        (if jsTrimS (jsOrBlank answers.creditPerson) ≠ "" then
          "  creditPerson: " ++ jsInterp answers.creditPerson ++
            "\n  creditLink: " ++ jsInterp answers.creditLink ++ "\n"
        else "")
    else yamlContent
  (yamlContent ++ "---", slugifiedTitle)

/-- Embedding of `generateYamlContent` from variant C (src/unnamed/part_000,
first script): as variant A but with the `pageHasVideo` key. -/
def generateYamlContentC (answers : EntryAnswers) : String × String :=
  let slugifiedTitle := slugify answers.title
  let tagsArray := jsTagsArray answers.tags
  let yamlContent :=
    "---\ntitle: " ++ answers.title ++ "\ndescription: " ++
      answers.description ++ "\ndate: " ++ answers.date ++ "\ntags: " ++
      jsonStringify2 tagsArray ++ "\n"
  let yamlContent := if answers.pageHasCode then
      yamlContent ++ ("pageHasCode: " ++ jsBool answers.pageHasCode ++ "\n")
    else yamlContent
  let yamlContent := if answers.pageHasVideo then
      yamlContent ++ ("pageHasVideo: " ++ jsBool answers.pageHasVideo ++ "\n")
    else yamlContent
  let yamlContent := if answers.snow then
      yamlContent ++ ("snow: " ++ jsBool answers.snow ++ "\n")
    else yamlContent
  let yamlContent := if jsTrimS answers.imageSource ≠ "" then
      yamlContent ++ ("image:\n  source: " ++ answers.imageSource ++
        "\n  alt: " ++ jsOrBlank answers.imageAlt ++ "\n")
    else yamlContent
  (yamlContent ++ "---", slugifiedTitle)

/-- Embedding of `generateYamlContent` from variant D (src/unnamed/part_000,
second script): image block gated on `hasImage` and a non-blank source, alt
interpolated directly (`${answers.imageAlt}`), credit sub-block, and a
trailing `draft: true` line before the closing delimiter. -/
def generateYamlContentD (answers : EntryAnswers) : String × String :=
  let slugifiedTitle := slugify answers.title
  let tagsArray := jsTagsArray answers.tags
  let yamlContent :=
    "---\ntitle: " ++ answers.title ++ "\ndescription: " ++
      answers.description ++ "\ndate: " ++ answers.date ++ "\ntags: " ++
      jsonStringify2 tagsArray ++ "\n"
  let yamlContent := if answers.pageHasCode then
      yamlContent ++ ("pageHasCode: " ++ jsBool answers.pageHasCode ++ "\n")
    else yamlContent
  let yamlContent := if answers.pageHasYoutube then
      yamlContent ++ ("pageHasYoutube: " ++ jsBool answers.pageHasYoutube ++ "\n")
    else yamlContent
  let yamlContent := if answers.snow then
      yamlContent ++ ("snow: " ++ jsBool answers.snow ++ "\n")
    else yamlContent
  let yamlContent := if answers.hasImage then
      (if jsTrimS answers.imageSource ≠ "" then
        yamlContent ++ ("image:\n  source: " ++ answers.imageSource ++
          "\n  alt: " ++ jsInterp answers.imageAlt ++ "\n") ++
          (if jsTrimS (jsOrBlank answers.creditPerson) ≠ "" then
            "  creditPerson: " ++ jsInterp answers.creditPerson ++
              "\n  creditLink: " ++ jsInterp answers.creditLink ++ "\n"
          else "")
      else yamlContent)
    else yamlContent
  (yamlContent ++ "draft: true\n---", slugifiedTitle)

/-- Embedding of `generateYamlContent` from variant E (src/unnamed/part_000,
third script): the image block is appended unconditionally and the alt text
is interpolated directly (`${answers.imageAlt}`). -/
def generateYamlContentE (answers : EntryAnswers) : String × String :=
  let slugifiedTitle := slugify answers.title
  let tagsArray := jsTagsArray answers.tags
  let yamlContent :=
    "---\ntitle: " ++ answers.title ++ "\ndescription: " ++
      answers.description ++ "\ndate: " ++ answers.date ++ "\ntags: " ++
      jsonStringify2 tagsArray ++ "\n"
  let yamlContent := if answers.pageHasCode then
      yamlContent ++ ("pageHasCode: " ++ jsBool answers.pageHasCode ++ "\n")
    else yamlContent
  let yamlContent := if answers.pageHasVideo then
      yamlContent ++ ("pageHasVideo: " ++ jsBool answers.pageHasVideo ++ "\n")
    else yamlContent
  let yamlContent := if answers.snow then
      yamlContent ++ ("snow: " ++ jsBool answers.snow ++ "\n")
    else yamlContent
  let yamlContent := yamlContent ++ ("image:\n  source: " ++
    answers.imageSource ++ "\n  alt: " ++ jsInterp answers.imageAlt ++ "\n---")
  (yamlContent, slugifiedTitle)

/-- Base directory for the entries (variant D). -/
def BASE_DIR : String := "/Users/Bob/Dropbox/Docs/Sites/bobmonsour.com/src/"

/-- Embedding of the `entryTypeToDir` mapping in variant D's `main`. -/
def entryTypeToDir : EntryType → String
  | .Post => "posts"
  | .Note => "notes"
  | .TIL => "til"

/-- Embedding of the file path computed by variant D's `main`:
`BASE_DIR + entryTypeToDir[answers.entryType] + "/" + slugifiedTitle + ".md"`. -/
def mainFilePathD (answers : EntryAnswers) : String :=
  (BASE_DIR ++ entryTypeToDir answers.entryType ++ "/") ++
    (generateYamlContentD answers).2 ++ ".md"

def noNL (s : String) : Prop := '\n' ∉ s.data

def noNLo (x : Option String) : Prop := '\n' ∉ (jsInterp x).data

/-- The free-text answers hold no newline character: they come from
single-line prompts. -/
def NoNL (a : EntryAnswers) : Prop :=
  noNL a.title ∧ noNL a.description ∧ noNL a.date ∧ noNL a.imageSource ∧
    noNLo a.imageAlt ∧ noNLo a.creditPerson ∧ noNLo a.creditLink

theorem noNL_jsOrBlank (x : Option String) (h : noNLo x) :
    '\n' ∉ (jsOrBlank x).data := by
  cases x with
  | none => simp [jsOrBlank]
  | some s => exact h

theorem noNL_append (s t : String) (hs : '\n' ∉ s.data)
    (ht : '\n' ∉ t.data) : '\n' ∉ (s ++ t).data := by
  rw [String.data_append]
  intro hc
  rcases List.mem_append.mp hc with hc | hc
  exacts [hs hc, ht hc]

theorem mem_ite_singleton (c : Prop) [Decidable c] (x l : List Char)
    (h : l ∈ (if c then [x] else ([] : List (List Char)))) : l = x := by
  split at h
  · simpa using h
  · simp at h

theorem split_lit_title :
    ("---\ntitle: ").data = ("---").data ++ '\n' :: ("title: ").data := rfl

theorem split_lit_description :
    ("\ndescription: ").data = '\n' :: ("description: ").data := rfl

theorem split_lit_date : ("\ndate: ").data = '\n' :: ("date: ").data := rfl

theorem split_lit_tags : ("\ntags: ").data = '\n' :: ("tags: ").data := rfl

theorem split_lit_nl : ("\n").data = ['\n'] := rfl

theorem split_lit_image :
    ("image:\n  source: ").data =
      ("image:").data ++ '\n' :: ("  source: ").data := rfl

theorem split_lit_alt : ("\n  alt: ").data = '\n' :: ("  alt: ").data := rfl

theorem split_lit_creditLink :
    ("\n  creditLink: ").data = '\n' :: ("  creditLink: ").data := rfl

theorem split_lit_draft :
    ("draft: true\n---").data = ("draft: true").data ++ '\n' :: ("---").data := rfl

theorem split_lit_img_final : ("\n---").data = '\n' :: ("---").data := rfl

/-- The four mandatory leading lines (shared by all variants). -/
def headLines (a : EntryAnswers) : List (List Char) :=
  [("---").data, ("title: " ++ a.title).data,
    ("description: " ++ a.description).data, ("date: " ++ a.date).data]

def flagLinesA (a : EntryAnswers) : List (List Char) :=
  (if a.pageHasCode then [("pageHasCode: true").data] else []) ++
    (if a.pageHasYoutube then [("pageHapageHasYoutubesVideo: true").data]
      else []) ++
    (if a.snow then [("snow: true").data] else [])

def imageLinesA (a : EntryAnswers) : List (List Char) :=
  if jsTrimS a.imageSource ≠ "" then
    [("image:").data, ("  source: " ++ a.imageSource).data,
      ("  alt: " ++ jsOrBlank a.imageAlt).data]
  else []

def linesA (a : EntryAnswers) : List (List Char) :=
  headLines a ++ tagLines (jsTagsArray a.tags) ++ flagLinesA a ++
    imageLinesA a ++ [("---").data]

theorem contentA_eq (a : EntryAnswers) :
    (generateYamlContentA a).1.data =
      joinNL (headLines a ++ tagLines (jsTagsArray a.tags) ++ flagLinesA a ++
        imageLinesA a) ++ ("---").data := by
  by_cases himg : jsTrimS a.imageSource = "" <;>
    cases hpc : a.pageHasCode <;> cases hyt : a.pageHasYoutube <;>
    cases hsn : a.snow <;>
  · simp only [generateYamlContentA, headLines, flagLinesA, imageLinesA,
      jsBool, hpc, hyt, hsn, himg, ne_eq, Bool.false_eq_true, Bool.true_eq_false,
      eq_self_iff_true, not_true_eq_false, not_false_eq_true,
      if_true, if_false, ite_true, ite_false, List.append_nil, List.nil_append,
      List.cons_append, joinNL_append, joinNL, String.data_append, List.append_eq]
    rw [← tags_chunk_eq_joinNL]
    simp [String.data_append, List.append_assoc]

def flagLinesB (a : EntryAnswers) : List (List Char) :=
  (if a.pageHasCode then [("pageHasCode: true").data] else []) ++
    (if a.pageHasYoutube then [("pageHasYoutube: true").data] else []) ++
    (if a.snow then [("snow: true").data] else [])

def creditLines (a : EntryAnswers) : List (List Char) :=
  if jsTrimS (jsOrBlank a.creditPerson) ≠ "" then
    [("  creditPerson: " ++ jsInterp a.creditPerson).data,
      ("  creditLink: " ++ jsInterp a.creditLink).data]
  else []

def imageLinesB (a : EntryAnswers) : List (List Char) :=
  if jsTrimS a.imageSource ≠ "" then
    [("image:").data, ("  source: " ++ a.imageSource).data,
      ("  alt: " ++ jsOrBlank a.imageAlt).data] ++ creditLines a
  else []

def linesB (a : EntryAnswers) : List (List Char) :=
  headLines a ++ tagLines (jsTagsArray a.tags) ++ flagLinesB a ++
    imageLinesB a ++ [("---").data]

def flagLinesC (a : EntryAnswers) : List (List Char) :=
  (if a.pageHasCode then [("pageHasCode: true").data] else []) ++
    (if a.pageHasVideo then [("pageHasVideo: true").data] else []) ++
    (if a.snow then [("snow: true").data] else [])

def imageLinesC (a : EntryAnswers) : List (List Char) :=
  if jsTrimS a.imageSource ≠ "" then
    [("image:").data, ("  source: " ++ a.imageSource).data,
      ("  alt: " ++ jsOrBlank a.imageAlt).data]
  else []

def linesC (a : EntryAnswers) : List (List Char) :=
  headLines a ++ tagLines (jsTagsArray a.tags) ++ flagLinesC a ++
    imageLinesC a ++ [("---").data]

def imageLinesD (a : EntryAnswers) : List (List Char) :=
  if a.hasImage then
    (if jsTrimS a.imageSource ≠ "" then
      [("image:").data, ("  source: " ++ a.imageSource).data,
        ("  alt: " ++ jsInterp a.imageAlt).data] ++ creditLines a
    else [])
  else []

def linesD (a : EntryAnswers) : List (List Char) :=
  headLines a ++ tagLines (jsTagsArray a.tags) ++ flagLinesB a ++
    imageLinesD a ++ [("draft: true").data, ("---").data]

def imageLinesE (a : EntryAnswers) : List (List Char) :=
  [("image:").data, ("  source: " ++ a.imageSource).data,
    ("  alt: " ++ jsInterp a.imageAlt).data]

def linesE (a : EntryAnswers) : List (List Char) :=
  headLines a ++ tagLines (jsTagsArray a.tags) ++ flagLinesC a ++
    imageLinesE a ++ [("---").data]

set_option maxHeartbeats 2000000 in
theorem contentB_eq (a : EntryAnswers) :
    (generateYamlContentB a).1.data =
      joinNL (headLines a ++ tagLines (jsTagsArray a.tags) ++ flagLinesB a ++
        imageLinesB a) ++ ("---").data := by
  by_cases himg : jsTrimS a.imageSource = "" <;>
    by_cases hcred : jsTrimS (jsOrBlank a.creditPerson) = "" <;>
    cases hpc : a.pageHasCode <;> cases hyt : a.pageHasYoutube <;>
    cases hsn : a.snow <;>
  · simp only [generateYamlContentB, headLines, flagLinesB, imageLinesB,
      creditLines, jsBool, hpc, hyt, hsn, himg, hcred, ne_eq,
      Bool.false_eq_true, Bool.true_eq_false, eq_self_iff_true,
      not_true_eq_false, not_false_eq_true, if_true, if_false, ite_true,
      ite_false, List.append_nil, List.nil_append, List.cons_append,
      joinNL_append, joinNL, String.data_append, List.append_eq]
    rw [← tags_chunk_eq_joinNL]
    simp [String.data_append, List.append_assoc]

set_option maxHeartbeats 2000000 in
theorem contentC_eq (a : EntryAnswers) :
    (generateYamlContentC a).1.data =
      joinNL (headLines a ++ tagLines (jsTagsArray a.tags) ++ flagLinesC a ++
        imageLinesC a) ++ ("---").data := by
  by_cases himg : jsTrimS a.imageSource = "" <;>
    cases hpc : a.pageHasCode <;> cases hyt : a.pageHasVideo <;>
    cases hsn : a.snow <;>
  · simp only [generateYamlContentC, headLines, flagLinesC, imageLinesC,
      jsBool, hpc, hyt, hsn, himg, ne_eq, Bool.false_eq_true,
      Bool.true_eq_false, eq_self_iff_true, not_true_eq_false,
      not_false_eq_true, if_true, if_false, ite_true, ite_false,
      List.append_nil, List.nil_append, List.cons_append, joinNL_append,
      joinNL, String.data_append, List.append_eq]
    rw [← tags_chunk_eq_joinNL]
    simp [String.data_append, List.append_assoc]

set_option maxHeartbeats 2000000 in
theorem contentD_eq (a : EntryAnswers) :
    (generateYamlContentD a).1.data =
      joinNL (headLines a ++ tagLines (jsTagsArray a.tags) ++ flagLinesB a ++
        imageLinesD a ++ [("draft: true").data]) ++ ("---").data := by
  cases hhi : a.hasImage <;>
    by_cases himg : jsTrimS a.imageSource = "" <;>
    by_cases hcred : jsTrimS (jsOrBlank a.creditPerson) = "" <;>
    cases hpc : a.pageHasCode <;> cases hyt : a.pageHasYoutube <;>
    cases hsn : a.snow <;>
  · simp only [generateYamlContentD, headLines, flagLinesB, imageLinesD,
      creditLines, jsBool, hhi, hpc, hyt, hsn, himg, hcred, ne_eq,
      Bool.false_eq_true, Bool.true_eq_false, eq_self_iff_true,
      not_true_eq_false, not_false_eq_true, if_true, if_false, ite_true,
      ite_false, List.append_nil, List.nil_append, List.cons_append,
      joinNL_append, joinNL, String.data_append, List.append_eq]
    rw [← tags_chunk_eq_joinNL]
    simp [String.data_append, List.append_assoc]

set_option maxHeartbeats 2000000 in
theorem contentE_eq (a : EntryAnswers) :
    (generateYamlContentE a).1.data =
      joinNL (headLines a ++ tagLines (jsTagsArray a.tags) ++ flagLinesC a ++
        imageLinesE a) ++ ("---").data := by
  cases hpc : a.pageHasCode <;> cases hyt : a.pageHasVideo <;>
    cases hsn : a.snow <;>
  · simp only [generateYamlContentE, headLines, flagLinesC, imageLinesE,
      jsBool, hpc, hyt, hsn, ne_eq, Bool.false_eq_true, Bool.true_eq_false,
      eq_self_iff_true, not_true_eq_false, not_false_eq_true, if_true,
      if_false, ite_true, ite_false, List.append_nil, List.nil_append,
      List.cons_append, joinNL_append, joinNL, String.data_append,
      List.append_eq]
    rw [← tags_chunk_eq_joinNL]
    simp [String.data_append, List.append_assoc]

theorem noNL_headLines (a : EntryAnswers) (h : NoNL a) :
    ∀ l ∈ headLines a, '\n' ∉ l := by
  obtain ⟨h1, h2, h3, _⟩ := h
  intro l hl
  simp only [headLines, List.mem_cons, List.not_mem_nil, or_false] at hl
  rcases hl with rfl | rfl | rfl | rfl
  · decide
  · exact noNL_append _ _ (by decide) h1
  · exact noNL_append _ _ (by decide) h2
  · exact noNL_append _ _ (by decide) h3

theorem noNL_flagLinesA (a : EntryAnswers) : ∀ l ∈ flagLinesA a, '\n' ∉ l := by
  intro l hl
  simp only [flagLinesA, List.mem_append] at hl
  rcases hl with (hl | hl) | hl <;>
    · rw [mem_ite_singleton _ _ _ hl]; decide

theorem noNL_flagLinesB (a : EntryAnswers) : ∀ l ∈ flagLinesB a, '\n' ∉ l := by
  intro l hl
  simp only [flagLinesB, List.mem_append] at hl
  rcases hl with (hl | hl) | hl <;>
    · rw [mem_ite_singleton _ _ _ hl]; decide

theorem noNL_flagLinesC (a : EntryAnswers) : ∀ l ∈ flagLinesC a, '\n' ∉ l := by
  intro l hl
  simp only [flagLinesC, List.mem_append] at hl
  rcases hl with (hl | hl) | hl <;>
    · rw [mem_ite_singleton _ _ _ hl]; decide

theorem noNL_creditLines (a : EntryAnswers) (h : NoNL a) :
    ∀ l ∈ creditLines a, '\n' ∉ l := by
  obtain ⟨_, _, _, _, _, h6, h7⟩ := h
  intro l hl
  unfold creditLines at hl
  split at hl
  · simp only [List.mem_cons, List.not_mem_nil, or_false] at hl
    rcases hl with rfl | rfl
    · exact noNL_append _ _ (by decide) h6
    · exact noNL_append _ _ (by decide) h7
  · simp at hl

theorem noNL_imageLinesA (a : EntryAnswers) (h : NoNL a) :
    ∀ l ∈ imageLinesA a, '\n' ∉ l := by
  obtain ⟨_, _, _, h4, h5, _, _⟩ := h
  intro l hl
  unfold imageLinesA at hl
  split at hl
  · simp only [List.mem_cons, List.not_mem_nil, or_false] at hl
    rcases hl with rfl | rfl | rfl
    · decide
    · exact noNL_append _ _ (by decide) h4
    · exact noNL_append _ _ (by decide) (noNL_jsOrBlank _ h5)
  · simp at hl

theorem noNL_imageLinesB (a : EntryAnswers) (h : NoNL a) :
    ∀ l ∈ imageLinesB a, '\n' ∉ l := by
  intro l hl
  unfold imageLinesB at hl
  split at hl
  · rcases List.mem_append.mp hl with hl | hl
    · obtain ⟨_, _, _, h4, h5, _, _⟩ := h
      simp only [List.mem_cons, List.not_mem_nil, or_false] at hl
      rcases hl with rfl | rfl | rfl
      · decide
      · exact noNL_append _ _ (by decide) h4
      · exact noNL_append _ _ (by decide) (noNL_jsOrBlank _ h5)
    · exact noNL_creditLines a h l hl
  · simp at hl

theorem noNL_imageLinesD (a : EntryAnswers) (h : NoNL a) :
    ∀ l ∈ imageLinesD a, '\n' ∉ l := by
  intro l hl
  unfold imageLinesD at hl
  split at hl
  · split at hl
    · rcases List.mem_append.mp hl with hl | hl
      · obtain ⟨_, _, _, h4, h5, _, _⟩ := h
        simp only [List.mem_cons, List.not_mem_nil, or_false] at hl
        rcases hl with rfl | rfl | rfl
        · decide
        · exact noNL_append _ _ (by decide) h4
        · exact noNL_append _ _ (by decide) h5
      · exact noNL_creditLines a h l hl
    · simp at hl
  · simp at hl

theorem noNL_imageLinesE (a : EntryAnswers) (h : NoNL a) :
    ∀ l ∈ imageLinesE a, '\n' ∉ l := by
  obtain ⟨_, _, _, h4, h5, _, _⟩ := h
  intro l hl
  simp only [imageLinesE, List.mem_cons, List.not_mem_nil, or_false] at hl
  rcases hl with rfl | rfl | rfl
  · decide
  · exact noNL_append _ _ (by decide) h4
  · exact noNL_append _ _ (by decide) h5

theorem textLines_contentA (a : EntryAnswers) (h : NoNL a) :
    textLines (generateYamlContentA a).1.data = linesA a := by
  have hside : ∀ l ∈ headLines a ++ tagLines (jsTagsArray a.tags) ++
      flagLinesA a ++ imageLinesA a, '\n' ∉ l := by
    intro l hl
    rcases List.mem_append.mp hl with hl | hl
    · rcases List.mem_append.mp hl with hl | hl
      · rcases List.mem_append.mp hl with hl | hl
        · exact noNL_headLines a h l hl
        · exact newline_not_mem_tagLines _ l hl
      · exact noNL_flagLinesA a l hl
    · exact noNL_imageLinesA a h l hl
  rw [contentA_eq a, textLines_joinNL _ _ hside (by decide)]
  simp [linesA, List.append_assoc]

theorem textLines_contentB (a : EntryAnswers) (h : NoNL a) :
    textLines (generateYamlContentB a).1.data = linesB a := by
  have hside : ∀ l ∈ headLines a ++ tagLines (jsTagsArray a.tags) ++
      flagLinesB a ++ imageLinesB a, '\n' ∉ l := by
    intro l hl
    rcases List.mem_append.mp hl with hl | hl
    · rcases List.mem_append.mp hl with hl | hl
      · rcases List.mem_append.mp hl with hl | hl
        · exact noNL_headLines a h l hl
        · exact newline_not_mem_tagLines _ l hl
      · exact noNL_flagLinesB a l hl
    · exact noNL_imageLinesB a h l hl
  rw [contentB_eq a, textLines_joinNL _ _ hside (by decide)]
  simp [linesB, List.append_assoc]

theorem textLines_contentC (a : EntryAnswers) (h : NoNL a) :
    textLines (generateYamlContentC a).1.data = linesC a := by
  have hside : ∀ l ∈ headLines a ++ tagLines (jsTagsArray a.tags) ++
      flagLinesC a ++ imageLinesC a, '\n' ∉ l := by
    intro l hl
    rcases List.mem_append.mp hl with hl | hl
    · rcases List.mem_append.mp hl with hl | hl
      · rcases List.mem_append.mp hl with hl | hl
        · exact noNL_headLines a h l hl
        · exact newline_not_mem_tagLines _ l hl
      · exact noNL_flagLinesC a l hl
    · exact noNL_imageLinesA a h l hl
  rw [contentC_eq a, textLines_joinNL _ _ hside (by decide)]
  simp [linesC, List.append_assoc]

theorem textLines_contentD (a : EntryAnswers) (h : NoNL a) :
    textLines (generateYamlContentD a).1.data = linesD a := by
  have hside : ∀ l ∈ headLines a ++ tagLines (jsTagsArray a.tags) ++
      flagLinesB a ++ imageLinesD a ++ [("draft: true").data], '\n' ∉ l := by
    intro l hl
    rcases List.mem_append.mp hl with hl | hl
    · rcases List.mem_append.mp hl with hl | hl
      · rcases List.mem_append.mp hl with hl | hl
        · rcases List.mem_append.mp hl with hl | hl
          · exact noNL_headLines a h l hl
          · exact newline_not_mem_tagLines _ l hl
        · exact noNL_flagLinesB a l hl
      · exact noNL_imageLinesD a h l hl
    · simp only [List.mem_singleton] at hl
      subst hl
      decide
  rw [contentD_eq a, textLines_joinNL _ _ hside (by decide)]
  simp [linesD, List.append_assoc]

theorem textLines_contentE (a : EntryAnswers) (h : NoNL a) :
    textLines (generateYamlContentE a).1.data = linesE a := by
  have hside : ∀ l ∈ headLines a ++ tagLines (jsTagsArray a.tags) ++
      flagLinesC a ++ imageLinesE a, '\n' ∉ l := by
    intro l hl
    rcases List.mem_append.mp hl with hl | hl
    · rcases List.mem_append.mp hl with hl | hl
      · rcases List.mem_append.mp hl with hl | hl
        · exact noNL_headLines a h l hl
        · exact newline_not_mem_tagLines _ l hl
      · exact noNL_flagLinesC a l hl
    · exact noNL_imageLinesE a h l hl
  rw [contentE_eq a, textLines_joinNL _ _ hside (by decide)]
  simp [linesE, List.append_assoc]

/-- First two characters of a line, when it has at least two. -/
def head2 (l : List Char) : Option (Char × Char) :=
  match l with
  | a :: b :: _ => some (a, b)
  | _ => none

/-- First three characters of a line, when it has at least three. -/
def head3 (l : List Char) : Option (Char × Char × Char) :=
  match l with
  | a :: b :: c :: _ => some (a, b, c)
  | _ => none

/-- `startsWithL pre l`: `pre` is an initial run of `l`. -/
def startsWithL : List Char → List Char → Bool
  | [], _ => true
  | p :: ps, l =>
    match l with
    | [] => false
    | c :: cs => p = c && startsWithL ps cs

theorem startsWithL_append_self (p r : List Char) :
    startsWithL p (p ++ r) = true := by
  induction p with
  | nil => rfl
  | cons c cs ih => simp [startsWithL, ih]

theorem startsWithL_true (p : Char) (ps l : List Char)
    (h : startsWithL (p :: ps) l = true) :
    ∃ t, l = p :: t ∧ startsWithL ps t = true := by
  cases l with
  | nil => simp [startsWithL] at h
  | cons c cs =>
    simp only [startsWithL, Bool.and_eq_true, decide_eq_true_eq] at h
    exact ⟨cs, by rw [h.1], h.2⟩

theorem headLines_mem_head2 (a : EntryAnswers) (l : List Char)
    (hl : l ∈ headLines a) :
    head2 l = some ('-', '-') ∨ head2 l = some ('t', 'i') ∨
      head2 l = some ('d', 'e') ∨ head2 l = some ('d', 'a') := by
  simp only [headLines, List.mem_cons, List.not_mem_nil, or_false] at hl
  rcases hl with rfl | rfl | rfl | rfl
  · left; decide
  · right; left
    rw [show ("title: " ++ a.title).data = 't' :: 'i' ::
      (("tle: ").data ++ a.title.data) from by simp [String.data_append]]
    rfl
  · right; right; left
    rw [show ("description: " ++ a.description).data = 'd' :: 'e' ::
      (("scription: ").data ++ a.description.data) from by
        simp [String.data_append]]
    rfl
  · right; right; right
    rw [show ("date: " ++ a.date).data = 'd' :: 'a' ::
      (("te: ").data ++ a.date.data) from by simp [String.data_append]]
    rfl

theorem tagLines_mem_head3 (ts : List String) (l : List Char)
    (hl : l ∈ tagLines ts) :
    head3 l = some ('t', 'a', 'g') ∨ l = ("]").data ∨
      head3 l = some (' ', ' ', '\x22') := by
  rcases tagLines_shape ts l hl with rfl | rfl | rfl | ⟨r, rfl⟩
  · left; decide
  · left; decide
  · right; left; rfl
  · right; right; rfl

theorem flagLinesA_mem (a : EntryAnswers) (l : List Char)
    (hl : l ∈ flagLinesA a) :
    l = ("pageHasCode: true").data ∨
      l = ("pageHapageHasYoutubesVideo: true").data ∨
      l = ("snow: true").data := by
  simp only [flagLinesA, List.mem_append] at hl
  rcases hl with (hl | hl) | hl
  · exact Or.inl (mem_ite_singleton _ _ _ hl)
  · exact Or.inr (Or.inl (mem_ite_singleton _ _ _ hl))
  · exact Or.inr (Or.inr (mem_ite_singleton _ _ _ hl))

theorem flagLinesB_mem (a : EntryAnswers) (l : List Char)
    (hl : l ∈ flagLinesB a) :
    l = ("pageHasCode: true").data ∨ l = ("pageHasYoutube: true").data ∨
      l = ("snow: true").data := by
  simp only [flagLinesB, List.mem_append] at hl
  rcases hl with (hl | hl) | hl
  · exact Or.inl (mem_ite_singleton _ _ _ hl)
  · exact Or.inr (Or.inl (mem_ite_singleton _ _ _ hl))
  · exact Or.inr (Or.inr (mem_ite_singleton _ _ _ hl))

theorem flagLinesC_mem (a : EntryAnswers) (l : List Char)
    (hl : l ∈ flagLinesC a) :
    l = ("pageHasCode: true").data ∨ l = ("pageHasVideo: true").data ∨
      l = ("snow: true").data := by
  simp only [flagLinesC, List.mem_append] at hl
  rcases hl with (hl | hl) | hl
  · exact Or.inl (mem_ite_singleton _ _ _ hl)
  · exact Or.inr (Or.inl (mem_ite_singleton _ _ _ hl))
  · exact Or.inr (Or.inr (mem_ite_singleton _ _ _ hl))

theorem creditLines_mem_head3 (a : EntryAnswers) (l : List Char)
    (hl : l ∈ creditLines a) :
    head3 l = some (' ', ' ', 'c') := by
  unfold creditLines at hl
  split at hl
  · simp only [List.mem_cons, List.not_mem_nil, or_false] at hl
    rcases hl with rfl | rfl
    · rw [show ("  creditPerson: " ++ jsInterp a.creditPerson).data =
        ' ' :: ' ' :: 'c' :: (("reditPerson: ").data ++
          (jsInterp a.creditPerson).data) from by simp [String.data_append]]
      rfl
    · rw [show ("  creditLink: " ++ jsInterp a.creditLink).data =
        ' ' :: ' ' :: 'c' :: (("reditLink: ").data ++
          (jsInterp a.creditLink).data) from by simp [String.data_append]]
      rfl
  · simp at hl

theorem imageLinesA_mem (a : EntryAnswers) (l : List Char)
    (hl : l ∈ imageLinesA a) :
    l = ("image:").data ∨ head3 l = some (' ', ' ', 's') ∨
      head3 l = some (' ', ' ', 'a') := by
  unfold imageLinesA at hl
  split at hl
  · simp only [List.mem_cons, List.not_mem_nil, or_false] at hl
    rcases hl with rfl | rfl | rfl
    · exact Or.inl rfl
    · right; left
      rw [show ("  source: " ++ a.imageSource).data = ' ' :: ' ' :: 's' ::
        (("ource: ").data ++ a.imageSource.data) from by
          simp [String.data_append]]
      rfl
    · right; right
      rw [show ("  alt: " ++ jsOrBlank a.imageAlt).data = ' ' :: ' ' :: 'a' ::
        (("lt: ").data ++ (jsOrBlank a.imageAlt).data) from by
          simp [String.data_append]]
      rfl
  · simp at hl

theorem imageLinesB_mem (a : EntryAnswers) (l : List Char)
    (hl : l ∈ imageLinesB a) :
    l = ("image:").data ∨ head3 l = some (' ', ' ', 's') ∨
      head3 l = some (' ', ' ', 'a') ∨ head3 l = some (' ', ' ', 'c') := by
  unfold imageLinesB at hl
  split at hl
  · rcases List.mem_append.mp hl with hl | hl
    · simp only [List.mem_cons, List.not_mem_nil, or_false] at hl
      rcases hl with rfl | rfl | rfl
      · exact Or.inl rfl
      · right; left
        rw [show ("  source: " ++ a.imageSource).data = ' ' :: ' ' :: 's' ::
          (("ource: ").data ++ a.imageSource.data) from by
            simp [String.data_append]]
        rfl
      · right; right; left
        rw [show ("  alt: " ++ jsOrBlank a.imageAlt).data =
          ' ' :: ' ' :: 'a' :: (("lt: ").data ++ (jsOrBlank a.imageAlt).data)
          from by simp [String.data_append]]
        rfl
    · exact Or.inr (Or.inr (Or.inr (creditLines_mem_head3 a l hl)))
  · simp at hl

theorem imageLinesD_mem (a : EntryAnswers) (l : List Char)
    (hl : l ∈ imageLinesD a) :
    l = ("image:").data ∨ head3 l = some (' ', ' ', 's') ∨
      head3 l = some (' ', ' ', 'a') ∨ head3 l = some (' ', ' ', 'c') := by
  unfold imageLinesD at hl
  split at hl
  · split at hl
    · rcases List.mem_append.mp hl with hl | hl
      · simp only [List.mem_cons, List.not_mem_nil, or_false] at hl
        rcases hl with rfl | rfl | rfl
        · exact Or.inl rfl
        · right; left
          rw [show ("  source: " ++ a.imageSource).data = ' ' :: ' ' :: 's' ::
            (("ource: ").data ++ a.imageSource.data) from by
              simp [String.data_append]]
          rfl
        · right; right; left
          rw [show ("  alt: " ++ jsInterp a.imageAlt).data =
            ' ' :: ' ' :: 'a' :: (("lt: ").data ++ (jsInterp a.imageAlt).data)
            from by simp [String.data_append]]
          rfl
      · exact Or.inr (Or.inr (Or.inr (creditLines_mem_head3 a l hl)))
    · simp at hl
  · simp at hl

theorem imageLinesE_mem (a : EntryAnswers) (l : List Char)
    (hl : l ∈ imageLinesE a) :
    l = ("image:").data ∨ head3 l = some (' ', ' ', 's') ∨
      head3 l = some (' ', ' ', 'a') := by
  simp only [imageLinesE, List.mem_cons, List.not_mem_nil, or_false] at hl
  rcases hl with rfl | rfl | rfl
  · exact Or.inl rfl
  · right; left
    rw [show ("  source: " ++ a.imageSource).data = ' ' :: ' ' :: 's' ::
      (("ource: ").data ++ a.imageSource.data) from by
        simp [String.data_append]]
    rfl
  · right; right
    rw [show ("  alt: " ++ jsInterp a.imageAlt).data = ' ' :: ' ' :: 'a' ::
      (("lt: ").data ++ (jsInterp a.imageAlt).data) from by
        simp [String.data_append]]
    rfl

theorem mem_linesA_cases (a : EntryAnswers) (l : List Char) (h : l ∈ linesA a) :
    l ∈ headLines a ∨ l ∈ tagLines (jsTagsArray a.tags) ∨ l ∈ flagLinesA a ∨
      l ∈ imageLinesA a ∨ l = ("---").data := by
  unfold linesA at h
  simp only [List.mem_append, List.mem_singleton] at h
  tauto

theorem mem_linesB_cases (a : EntryAnswers) (l : List Char) (h : l ∈ linesB a) :
    l ∈ headLines a ∨ l ∈ tagLines (jsTagsArray a.tags) ∨ l ∈ flagLinesB a ∨
      l ∈ imageLinesB a ∨ l = ("---").data := by
  unfold linesB at h
  simp only [List.mem_append, List.mem_singleton] at h
  tauto

theorem mem_linesC_cases (a : EntryAnswers) (l : List Char) (h : l ∈ linesC a) :
    l ∈ headLines a ∨ l ∈ tagLines (jsTagsArray a.tags) ∨ l ∈ flagLinesC a ∨
      l ∈ imageLinesC a ∨ l = ("---").data := by
  unfold linesC at h
  simp only [List.mem_append, List.mem_singleton] at h
  tauto

theorem mem_linesD_cases (a : EntryAnswers) (l : List Char) (h : l ∈ linesD a) :
    l ∈ headLines a ∨ l ∈ tagLines (jsTagsArray a.tags) ∨ l ∈ flagLinesB a ∨
      l ∈ imageLinesD a ∨ l = ("draft: true").data ∨ l = ("---").data := by
  unfold linesD at h
  simp only [List.mem_append, List.mem_cons, List.not_mem_nil, or_false] at h
  tauto

theorem mem_linesE_cases (a : EntryAnswers) (l : List Char) (h : l ∈ linesE a) :
    l ∈ headLines a ∨ l ∈ tagLines (jsTagsArray a.tags) ∨ l ∈ flagLinesC a ∨
      l ∈ imageLinesE a ∨ l = ("---").data := by
  unfold linesE at h
  simp only [List.mem_append, List.mem_singleton] at h
  tauto

theorem head2_of_head3 (l : List Char) (x y z : Char)
    (h : head3 l = some (x, y, z)) : head2 l = some (x, y) := by
  cases l with
  | nil => simp [head3] at h
  | cons a t =>
    cases t with
    | nil => simp [head3] at h
    | cons b t' =>
      cases t' with
      | nil => simp [head3] at h
      | cons c t'' =>
        simp only [head3, Option.some.injEq, Prod.mk.injEq] at h
        simp [head2, h.1, h.2.1]

theorem head3_of_startsWithL (p1 p2 p3 : Char) (ps l : List Char)
    (h : startsWithL (p1 :: p2 :: p3 :: ps) l = true) :
    head3 l = some (p1, p2, p3) := by
  cases l with
  | nil => simp [startsWithL] at h
  | cons a t =>
    cases t with
    | nil => simp [startsWithL] at h
    | cons b t' =>
      cases t' with
      | nil => simp [startsWithL] at h
      | cons c t'' =>
        simp only [startsWithL, Bool.and_eq_true, decide_eq_true_eq] at h
        obtain ⟨h1, h2, h3, _⟩ := h
        simp [head3, ← h1, ← h2, ← h3]

theorem flagLinesA_mem_code (a : EntryAnswers) :
    ("pageHasCode: true").data ∈ flagLinesA a ↔ a.pageHasCode = true := by
  cases h1 : a.pageHasCode <;> cases h2 : a.pageHasYoutube <;>
    cases h3 : a.snow <;> simp [flagLinesA, h1, h2, h3]

theorem flagLinesA_mem_video (a : EntryAnswers) :
    ("pageHapageHasYoutubesVideo: true").data ∈ flagLinesA a ↔
      a.pageHasYoutube = true := by
  cases h1 : a.pageHasCode <;> cases h2 : a.pageHasYoutube <;>
    cases h3 : a.snow <;> simp [flagLinesA, h1, h2, h3]

theorem flagLinesA_mem_snow (a : EntryAnswers) :
    ("snow: true").data ∈ flagLinesA a ↔ a.snow = true := by
  cases h1 : a.pageHasCode <;> cases h2 : a.pageHasYoutube <;>
    cases h3 : a.snow <;> simp [flagLinesA, h1, h2, h3]

theorem flagLinesB_mem_code (a : EntryAnswers) :
    ("pageHasCode: true").data ∈ flagLinesB a ↔ a.pageHasCode = true := by
  cases h1 : a.pageHasCode <;> cases h2 : a.pageHasYoutube <;>
    cases h3 : a.snow <;> simp [flagLinesB, h1, h2, h3]

theorem flagLinesB_mem_youtube (a : EntryAnswers) :
    ("pageHasYoutube: true").data ∈ flagLinesB a ↔ a.pageHasYoutube = true := by
  cases h1 : a.pageHasCode <;> cases h2 : a.pageHasYoutube <;>
    cases h3 : a.snow <;> simp [flagLinesB, h1, h2, h3]

theorem flagLinesB_mem_snow (a : EntryAnswers) :
    ("snow: true").data ∈ flagLinesB a ↔ a.snow = true := by
  cases h1 : a.pageHasCode <;> cases h2 : a.pageHasYoutube <;>
    cases h3 : a.snow <;> simp [flagLinesB, h1, h2, h3]

theorem imageLinesA_mem_image (a : EntryAnswers) :
    ("image:").data ∈ imageLinesA a ↔ jsTrimS a.imageSource ≠ "" := by
  unfold imageLinesA
  split
  · rename_i hg
    simp [hg]
  · rename_i hg
    simp [hg]

theorem imageLinesB_mem_image (a : EntryAnswers) :
    ("image:").data ∈ imageLinesB a ↔ jsTrimS a.imageSource ≠ "" := by
  unfold imageLinesB
  split
  · rename_i hg
    simp [hg]
  · rename_i hg
    simp [hg]

theorem imageLinesC_mem_image (a : EntryAnswers) :
    ("image:").data ∈ imageLinesC a ↔ jsTrimS a.imageSource ≠ "" := by
  unfold imageLinesC
  split
  · rename_i hg
    simp [hg]
  · rename_i hg
    simp [hg]

theorem imageLinesD_mem_image (a : EntryAnswers) :
    ("image:").data ∈ imageLinesD a ↔
      (a.hasImage = true ∧ jsTrimS a.imageSource ≠ "") := by
  unfold imageLinesD
  split
  · rename_i hg
    split
    · rename_i hg2
      simp [hg, hg2]
    · rename_i hg2
      simp [hg, hg2]
  · rename_i hg
    simp [hg]

theorem imageLinesE_mem_image (a : EntryAnswers) :
    ("image:").data ∈ imageLinesE a := by
  simp [imageLinesE]

theorem creditLines_pos (a : EntryAnswers)
    (hc : jsTrimS (jsOrBlank a.creditPerson) ≠ "") :
    creditLines a = [("  creditPerson: " ++ jsInterp a.creditPerson).data,
      ("  creditLink: " ++ jsInterp a.creditLink).data] := by
  unfold creditLines
  rw [if_pos hc]

theorem imageLinesB_credit_gate (a : EntryAnswers) (l : List Char)
    (hl : l ∈ imageLinesB a) (hx : head3 l = some (' ', ' ', 'c')) :
    jsTrimS a.imageSource ≠ "" ∧ jsTrimS (jsOrBlank a.creditPerson) ≠ "" := by
  unfold imageLinesB at hl
  split at hl
  · rename_i hg
    refine ⟨hg, ?_⟩
    rcases List.mem_append.mp hl with hl | hl
    · exfalso
      simp only [List.mem_cons, List.not_mem_nil, or_false] at hl
      rcases hl with rfl | rfl | rfl
      · exact absurd hx (by decide)
      · rw [show ("  source: " ++ a.imageSource).data = ' ' :: ' ' :: 's' ::
          (("ource: ").data ++ a.imageSource.data) from by
            simp [String.data_append]] at hx
        exact absurd hx (by simp [head3])
      · rw [show ("  alt: " ++ jsOrBlank a.imageAlt).data =
          ' ' :: ' ' :: 'a' :: (("lt: ").data ++ (jsOrBlank a.imageAlt).data)
          from by simp [String.data_append]] at hx
        exact absurd hx (by simp [head3])
    · unfold creditLines at hl
      split at hl
      · rename_i hc
        exact hc
      · simp at hl
  · simp at hl

theorem tagLines_nil_mem : ("tags: []").data ∈ tagLines [] := by
  simp [tagLines]

theorem tagLines_starts (ts : List String) :
    ∃ l ∈ tagLines ts, startsWithL ("tags: ").data l = true := by
  cases ts with
  | nil => exact ⟨("tags: []").data, by simp [tagLines], by decide⟩
  | cons t ts => exact ⟨("tags: [").data, by simp [tagLines], by decide⟩

/-- Field identifiers of the prompt sequences. -/
inductive FieldId where
  | title
  | date
  | tags
  | description
  | pageHasCode
  | snow
  | pageHasYoutube
  | pageHasVideo
  | imageSource
  | imageAlt
  | creditPerson
  | creditLink
deriving DecidableEq

/-- One round of user keystrokes at a prompt sequence: `none` for a field
means the user pressed enter there (accepting the declared default, or
blank when the question declares none). -/
structure EditInput where
  text : FieldId → Option String
  flag : FieldId → Option Bool

/-- Inquirer semantics of one `input` question: the typed text, else the
declared default, else blank. -/
def askText (typed : Option String) (dflt : Option String) : String :=
  match typed with
  | some s => s
  | none => dflt.getD ""

/-- Inquirer semantics of one `confirm` question. -/
def askFlag (typed : Option Bool) (dflt : Bool) : Bool :=
  typed.getD dflt

/-- Embedding of the re-edit prompt list inside variant B's
`confirmOrEditYaml` (src/mkbo.js, second script): every question carries
`default: answers.<field>` except `creditPerson` and `creditLink`, which
are declared without a default; `imageAlt` and `creditPerson` are asked
only when the freshly entered image source is non-blank, `creditLink` only
when the freshly entered credit person is non-blank (skipped questions
leave the field `undefined`, and `inquirer.prompt` replaces the whole
answers object). -/
def reEditAnswersB (answers : EntryAnswers) (inp : EditInput) : EntryAnswers :=
  let title := askText (inp.text .title) (some answers.title)
  let date := askText (inp.text .date) (some answers.date)
  let tags := askText (inp.text .tags) answers.tags
  let description := askText (inp.text .description) (some answers.description)
  let pageHasCode := askFlag (inp.flag .pageHasCode) answers.pageHasCode
  let snow := askFlag (inp.flag .snow) answers.snow
  let pageHasYoutube := askFlag (inp.flag .pageHasYoutube) answers.pageHasYoutube
  let imageSource := askText (inp.text .imageSource) (some answers.imageSource)
  let imageAlt := if jsTrimS imageSource ≠ "" then
      some (askText (inp.text .imageAlt) answers.imageAlt)
    else none
  let creditPerson := if jsTrimS imageSource ≠ "" then
      some (askText (inp.text .creditPerson) none)
    else none
  let creditLink := if jsTrimS (jsOrBlank creditPerson) ≠ "" then
      some (askText (inp.text .creditLink) none)
    else none
  { title := title, date := date, tags := some tags,
    description := description, pageHasCode := pageHasCode, snow := snow,
    pageHasYoutube := pageHasYoutube, imageSource := imageSource,
    imageAlt := imageAlt, creditPerson := creditPerson,
    creditLink := creditLink }

/-- Embedding of the re-edit prompt list inside variant C's
`confirmOrEditYaml` (src/unnamed/part_000, first script): every question
carries `default: answers.<field>`; `imageAlt` is asked only when the
freshly entered image source is non-blank. -/
def reEditAnswersC (answers : EntryAnswers) (inp : EditInput) : EntryAnswers :=
  let title := askText (inp.text .title) (some answers.title)
  let date := askText (inp.text .date) (some answers.date)
  let tags := askText (inp.text .tags) answers.tags
  let description := askText (inp.text .description) (some answers.description)
  let pageHasCode := askFlag (inp.flag .pageHasCode) answers.pageHasCode
  let snow := askFlag (inp.flag .snow) answers.snow
  let pageHasVideo := askFlag (inp.flag .pageHasVideo) answers.pageHasVideo
  let imageSource := askText (inp.text .imageSource) (some answers.imageSource)
  let imageAlt := if jsTrimS imageSource ≠ "" then
      some (askText (inp.text .imageAlt) answers.imageAlt)
    else none
  { title := title, date := date, tags := some tags,
    description := description, pageHasCode := pageHasCode, snow := snow,
    pageHasVideo := pageHasVideo, imageSource := imageSource,
    imageAlt := imageAlt }

/-- One round of the review loop: the user accepts, or rejects and then
answers the full re-edit prompt sequence. -/
inductive ReviewRound where
  | accept
  | reject (inp : EditInput)

/-- Embedding of variant B's `confirmOrEditYaml`, driven by a finite list of
user decisions: display, ask acceptance; on rejection re-run the whole
prompt sequence and the assembler, then loop.  `none` means the decision
list ran out before an acceptance (the script itself loops until the user
accepts). -/
def confirmOrEditYamlB (yamlContent : String) (answers : EntryAnswers) :
    List ReviewRound → Option (String × EntryAnswers)
  | [] => none
  | .accept :: _ => some (yamlContent, answers)
  | .reject inp :: rest =>
    confirmOrEditYamlB (generateYamlContentB (reEditAnswersB answers inp)).1
      (reEditAnswersB answers inp) rest

/-- The user presses enter at every question. -/
def allEnter : EditInput :=
  ⟨fun _ => none, fun _ => none⟩

/-- Invariants installed by variant B's `promptUser` question list:
`creditPerson` is a string exactly when the image source is non-blank, and
`creditLink` is asked (and URL-validated) exactly when a non-blank credit
person was given. -/
def promptValidB (a : EntryAnswers) : Prop :=
  (jsTrimS a.imageSource ≠ "" → a.creditPerson.isSome = true) ∧
    (jsTrimS a.imageSource = "" → a.creditPerson = none ∧ a.creditLink = none) ∧
    (jsTrimS (jsOrBlank a.creditPerson) ≠ "" →
      a.creditLink.isSome = true ∧ urlTest (jsOrBlank a.creditLink) = true) ∧
    (jsTrimS (jsOrBlank a.creditPerson) = "" → a.creditLink = none)

theorem linesA_query_flags (a : EntryAnswers) (q : List Char)
    (hq : ¬(head2 q = some ('-', '-') ∨ head2 q = some ('t', 'i') ∨
        head2 q = some ('d', 'e') ∨ head2 q = some ('d', 'a')) ∧
      ¬(head3 q = some ('t', 'a', 'g') ∨ q = ("]").data ∨
        head3 q = some (' ', ' ', '\x22')) ∧
      ¬(q = ("image:").data ∨ head3 q = some (' ', ' ', 's') ∨
        head3 q = some (' ', ' ', 'a')) ∧
      q ≠ ("---").data) :
    q ∈ linesA a ↔ q ∈ flagLinesA a := by
  obtain ⟨hhead, htags, himg, hlast⟩ := hq
  constructor
  · intro h
    rcases mem_linesA_cases a _ h with h1 | h1 | h1 | h1 | h1
    · exact absurd (headLines_mem_head2 a _ h1) hhead
    · exact absurd (tagLines_mem_head3 _ _ h1) htags
    · exact h1
    · exact absurd (imageLinesA_mem a _ h1) himg
    · exact absurd h1 hlast
  · intro h
    unfold linesA
    simp [List.mem_append, h]

theorem linesD_query_flags (a : EntryAnswers) (q : List Char)
    (hq : ¬(head2 q = some ('-', '-') ∨ head2 q = some ('t', 'i') ∨
        head2 q = some ('d', 'e') ∨ head2 q = some ('d', 'a')) ∧
      ¬(head3 q = some ('t', 'a', 'g') ∨ q = ("]").data ∨
        head3 q = some (' ', ' ', '\x22')) ∧
      ¬(q = ("image:").data ∨ head3 q = some (' ', ' ', 's') ∨
        head3 q = some (' ', ' ', 'a') ∨ head3 q = some (' ', ' ', 'c')) ∧
      q ≠ ("draft: true").data ∧ q ≠ ("---").data) :
    q ∈ linesD a ↔ q ∈ flagLinesB a := by
  obtain ⟨hhead, htags, himg, hdraft, hlast⟩ := hq
  constructor
  · intro h
    rcases mem_linesD_cases a _ h with h1 | h1 | h1 | h1 | h1 | h1
    · exact absurd (headLines_mem_head2 a _ h1) hhead
    · exact absurd (tagLines_mem_head3 _ _ h1) htags
    · exact h1
    · exact absurd (imageLinesD_mem a _ h1) himg
    · exact absurd h1 hdraft
    · exact absurd h1 hlast
  · intro h
    unfold linesD
    simp [List.mem_append, h]

theorem linesA_query_image (a : EntryAnswers) :
    ("image:").data ∈ linesA a ↔ ("image:").data ∈ imageLinesA a := by
  constructor
  · intro h
    rcases mem_linesA_cases a _ h with h1 | h1 | h1 | h1 | h1
    · exact absurd (headLines_mem_head2 a _ h1) (by decide)
    · exact absurd (tagLines_mem_head3 _ _ h1) (by decide)
    · exact absurd (flagLinesA_mem a _ h1) (by decide)
    · exact h1
    · exact absurd h1 (by decide)
  · intro h
    unfold linesA
    simp [List.mem_append, h]

theorem linesB_query_image (a : EntryAnswers) :
    ("image:").data ∈ linesB a ↔ ("image:").data ∈ imageLinesB a := by
  constructor
  · intro h
    rcases mem_linesB_cases a _ h with h1 | h1 | h1 | h1 | h1
    · exact absurd (headLines_mem_head2 a _ h1) (by decide)
    · exact absurd (tagLines_mem_head3 _ _ h1) (by decide)
    · exact absurd (flagLinesB_mem a _ h1) (by decide)
    · exact h1
    · exact absurd h1 (by decide)
  · intro h
    unfold linesB
    simp [List.mem_append, h]

theorem linesC_query_image (a : EntryAnswers) :
    ("image:").data ∈ linesC a ↔ ("image:").data ∈ imageLinesC a := by
  constructor
  · intro h
    rcases mem_linesC_cases a _ h with h1 | h1 | h1 | h1 | h1
    · exact absurd (headLines_mem_head2 a _ h1) (by decide)
    · exact absurd (tagLines_mem_head3 _ _ h1) (by decide)
    · exact absurd (flagLinesC_mem a _ h1) (by decide)
    · exact h1
    · exact absurd h1 (by decide)
  · intro h
    unfold linesC
    simp [List.mem_append, h]

theorem linesD_query_image (a : EntryAnswers) :
    ("image:").data ∈ linesD a ↔ ("image:").data ∈ imageLinesD a := by
  constructor
  · intro h
    rcases mem_linesD_cases a _ h with h1 | h1 | h1 | h1 | h1 | h1
    · exact absurd (headLines_mem_head2 a _ h1) (by decide)
    · exact absurd (tagLines_mem_head3 _ _ h1) (by decide)
    · exact absurd (flagLinesB_mem a _ h1) (by decide)
    · exact h1
    · exact absurd h1 (by decide)
    · exact absurd h1 (by decide)
  · intro h
    unfold linesD
    simp [List.mem_append, h]

instance (s : String) : Decidable (noNL s) := by
  unfold noNL
  infer_instance

instance (x : Option String) : Decidable (noNLo x) := by
  unfold noNLo
  infer_instance

instance (a : EntryAnswers) : Decidable (NoNL a) := by
  unfold NoNL
  exact instDecidableAnd

/-- C8: in the first variant of src/mkbo.js, for every record with the
video flag `pageHasYoutube` true, the emitted front-matter line uses the
misspelled key `pageHapageHasYoutubesVideo` (the line
`pageHapageHasYoutubesVideo: true` appears among the lines of the output),
and no line with the key `pageHasYoutube` is emitted. -/
theorem c8_misspelled_video_key (a : EntryAnswers) (h : NoNL a)
    (hv : a.pageHasYoutube = true) :
    ("pageHapageHasYoutubesVideo: true").data ∈
        textLines (generateYamlContentA a).1.data ∧
      ("pageHasYoutube: true").data ∉
        textLines (generateYamlContentA a).1.data := by
  rw [textLines_contentA a h]
  constructor
  · unfold linesA
    have hm : ("pageHapageHasYoutubesVideo: true").data ∈ flagLinesA a :=
      (flagLinesA_mem_video a).mpr hv
    simp [List.mem_append, hm]
  · intro hmem
    have h2 := (linesA_query_flags a _ (by decide)).mp hmem
    exact absurd (flagLinesA_mem a _ h2) (by decide)

def cw8 : EntryAnswers :=
  { title := "A test post", date := "2025-02-07",
    tags := some "blogging, personal", description := "An example",
    pageHasYoutube := true, imageSource := "" }

theorem c8_witness :
    NoNL cw8 ∧ cw8.pageHasYoutube = true ∧
      (("pageHapageHasYoutubesVideo: true").data ∈
          textLines (generateYamlContentA cw8).1.data ∧
        ("pageHasYoutube: true").data ∉
          textLines (generateYamlContentA cw8).1.data) :=
  ⟨by decide, rfl, c8_misspelled_video_key cw8 (by decide) rfl⟩

/-- C4: for every record and each boolean flag (code flag, video/YouTube
flag, snow flag), the assembled front matter contains the corresponding
flag line iff that flag is true, and a flag line never appears with the
value `false` — shown for variant A of src/mkbo.js and the multi-type
variant D of src/unnamed/part_000. -/
theorem c4_flag_lines_iff (a : EntryAnswers) (h : NoNL a) :
    (("pageHasCode: true").data ∈
        textLines (generateYamlContentA a).1.data ↔ a.pageHasCode = true) ∧
    (("pageHapageHasYoutubesVideo: true").data ∈
        textLines (generateYamlContentA a).1.data ↔ a.pageHasYoutube = true) ∧
    (("snow: true").data ∈
        textLines (generateYamlContentA a).1.data ↔ a.snow = true) ∧
    ("pageHasCode: false").data ∉ textLines (generateYamlContentA a).1.data ∧
    ("pageHapageHasYoutubesVideo: false").data ∉
        textLines (generateYamlContentA a).1.data ∧
    ("snow: false").data ∉ textLines (generateYamlContentA a).1.data ∧
    (("pageHasCode: true").data ∈
        textLines (generateYamlContentD a).1.data ↔ a.pageHasCode = true) ∧
    (("pageHasYoutube: true").data ∈
        textLines (generateYamlContentD a).1.data ↔ a.pageHasYoutube = true) ∧
    (("snow: true").data ∈
        textLines (generateYamlContentD a).1.data ↔ a.snow = true) ∧
    ("pageHasCode: false").data ∉ textLines (generateYamlContentD a).1.data ∧
    ("pageHasYoutube: false").data ∉
        textLines (generateYamlContentD a).1.data ∧
    ("snow: false").data ∉ textLines (generateYamlContentD a).1.data := by
  rw [textLines_contentA a h, textLines_contentD a h]
  have qA := fun q => linesA_query_flags a q
  have qD := fun q => linesD_query_flags a q
  refine ⟨?_, ?_, ?_, ?_⟩
  · rw [qA _ (by decide)]
    exact flagLinesA_mem_code a
  · rw [qA _ (by decide)]
    exact flagLinesA_mem_video a
  · rw [qA _ (by decide)]
    exact flagLinesA_mem_snow a
  refine ⟨?_, ?_, ?_, ?_⟩
  · intro hm
    have h2 := (qA _ (by decide)).mp hm
    exact absurd (flagLinesA_mem a _ h2) (by decide)
  · intro hm
    have h2 := (qA _ (by decide)).mp hm
    exact absurd (flagLinesA_mem a _ h2) (by decide)
  · intro hm
    have h2 := (qA _ (by decide)).mp hm
    exact absurd (flagLinesA_mem a _ h2) (by decide)
  refine ⟨?_, ?_, ?_, ?_⟩
  · rw [qD _ (by decide)]
    exact flagLinesB_mem_code a
  · rw [qD _ (by decide)]
    exact flagLinesB_mem_youtube a
  · rw [qD _ (by decide)]
    exact flagLinesB_mem_snow a
  refine ⟨?_, ?_, ?_⟩
  · intro hm
    have h2 := (qD _ (by decide)).mp hm
    exact absurd (flagLinesB_mem a _ h2) (by decide)
  · intro hm
    have h2 := (qD _ (by decide)).mp hm
    exact absurd (flagLinesB_mem a _ h2) (by decide)
  · intro hm
    have h2 := (qD _ (by decide)).mp hm
    exact absurd (flagLinesB_mem a _ h2) (by decide)

def cw4 : EntryAnswers :=
  { title := "A test post", date := "2025-02-07", tags := some "x",
    description := "d", pageHasCode := true, snow := false,
    pageHasYoutube := true, imageSource := "" }

theorem c4_witness :
    NoNL cw4 ∧
      ((("pageHasCode: true").data ∈
          textLines (generateYamlContentA cw4).1.data ↔
            cw4.pageHasCode = true) ∧
        ("snow: false").data ∉ textLines (generateYamlContentA cw4).1.data) :=
  ⟨by decide,
    ⟨(c4_flag_lines_iff cw4 (by decide)).1,
      (c4_flag_lines_iff cw4 (by decide)).2.2.2.2.2.1⟩⟩

def cx1 : EntryAnswers :=
  { title := "A test post", date := "2025-02-07", tags := some "",
    description := "d", imageSource := "", imageAlt := some "x" }

/-- C1 counterexample: variant E (src/unnamed/part_000, third script) has
no `hasImage` gate, yet with a blank `imageSource` its output still
contains the `image:` block line — a blank image source in a non-gated
variant does not suppress the image block there. -/
theorem c1_counterexample :
    jsTrimS cx1.imageSource = "" ∧
      ("image:").data ∈ textLines (generateYamlContentE cx1).1.data := by
  exact ⟨by decide, by decide⟩

/-- C1 amended: in non-gated variants A, B and C the image block line
appears iff the trimmed image source is non-blank; in the hasImage-gated
variant D iff `hasImage` is true and the trimmed source is non-blank; the
remaining non-gated variant E emits the image block unconditionally. -/
theorem c1_image_block_iff (a : EntryAnswers) (h : NoNL a) :
    (("image:").data ∈ textLines (generateYamlContentA a).1.data ↔
        jsTrimS a.imageSource ≠ "") ∧
      (("image:").data ∈ textLines (generateYamlContentB a).1.data ↔
        jsTrimS a.imageSource ≠ "") ∧
      (("image:").data ∈ textLines (generateYamlContentC a).1.data ↔
        jsTrimS a.imageSource ≠ "") ∧
      (("image:").data ∈ textLines (generateYamlContentD a).1.data ↔
        (a.hasImage = true ∧ jsTrimS a.imageSource ≠ "")) ∧
      ("image:").data ∈ textLines (generateYamlContentE a).1.data := by
  refine ⟨?_, ?_, ?_, ?_⟩
  rotate_right
  refine ⟨?_, ?_⟩
  rotate_left 2
  · rw [textLines_contentA a h, linesA_query_image a]
    exact imageLinesA_mem_image a
  · rw [textLines_contentB a h, linesB_query_image a]
    exact imageLinesB_mem_image a
  · rw [textLines_contentC a h, linesC_query_image a]
    exact imageLinesC_mem_image a
  · rw [textLines_contentD a h, linesD_query_image a]
    exact imageLinesD_mem_image a
  · rw [textLines_contentE a h]
    unfold linesE
    simp [List.mem_append, imageLinesE_mem_image a]

def cw1 : EntryAnswers :=
  { title := "A test post", date := "2025-02-07", tags := some "t",
    description := "d", hasImage := true, imageSource := "a-test-post.jpg",
    imageAlt := some "alt text" }

theorem c1_witness :
    NoNL cw1 ∧
      ((("image:").data ∈ textLines (generateYamlContentA cw1).1.data ↔
          jsTrimS cw1.imageSource ≠ "") ∧
        (("image:").data ∈ textLines (generateYamlContentD cw1).1.data ↔
          (cw1.hasImage = true ∧ jsTrimS cw1.imageSource ≠ ""))) :=
  ⟨by decide,
    ⟨(c1_image_block_iff cw1 (by decide)).1,
      (c1_image_block_iff cw1 (by decide)).2.2.2.1⟩⟩

/-- C5: in variant A, when the tags answer is the empty string or absent,
the output still contains the line `tags: []` (the empty bracketed list),
and for every record some line starting with `tags: ` is present — the
tags line is never omitted. -/
theorem c5_tags_line (a : EntryAnswers) (h : NoNL a) :
    ((a.tags = some "" ∨ a.tags = none) →
        ("tags: []").data ∈ textLines (generateYamlContentA a).1.data) ∧
      ∃ l ∈ textLines (generateYamlContentA a).1.data,
        startsWithL ("tags: ").data l = true := by
  rw [textLines_contentA a h]
  constructor
  · intro ht
    have harr : jsTagsArray a.tags = [] := by
      rcases ht with ht | ht <;> simp [jsTagsArray, ht]
    unfold linesA
    rw [harr]
    apply List.mem_append_left
    apply List.mem_append_left
    apply List.mem_append_left
    exact List.mem_append_right _ tagLines_nil_mem
  · obtain ⟨l, hl, hsw⟩ := tagLines_starts (jsTagsArray a.tags)
    refine ⟨l, ?_, hsw⟩
    unfold linesA
    apply List.mem_append_left
    apply List.mem_append_left
    apply List.mem_append_left
    exact List.mem_append_right _ hl

def cw5 : EntryAnswers :=
  { title := "A test post", date := "2025-02-07", tags := some "",
    description := "d", imageSource := "" }

theorem c5_witness :
    NoNL cw5 ∧ (cw5.tags = some "" ∨ cw5.tags = none) ∧
      ("tags: []").data ∈ textLines (generateYamlContentA cw5).1.data :=
  ⟨by decide, Or.inl rfl,
    (c5_tags_line cw5 (by decide)).1 (Or.inl rfl)⟩

def cx10 : EntryAnswers :=
  { title := "t", date := "2025-01-01", tags := some "", description := "d",
    imageSource := "pic.jpg", imageAlt := none }

/-- C10 counterexample: variant E also lacks the `hasImage` gate, yet with
an absent `imageAlt` and a non-blank image source it emits the line
`  alt: undefined` — the absent field is interpolated as the text
`undefined`, not coalesced to the empty string. -/
theorem c10_counterexample :
    cx10.imageAlt = none ∧ jsTrimS cx10.imageSource ≠ "" ∧
      ("  alt: undefined").data ∈
        textLines (generateYamlContentE cx10).1.data := by
  exact ⟨rfl, by decide, by decide⟩

/-- C10 amended: the non-gated variants A, B and C compute
`answers.imageAlt || ""`, so with an absent `imageAlt` and a non-blank
image source they emit an `alt:` line with a blank value; variant E, which
interpolates the field directly, emits `  alt: undefined` instead. -/
theorem c10_alt_coalescing (a : EntryAnswers) (h : NoNL a)
    (ha : a.imageAlt = none) :
    (jsTrimS a.imageSource ≠ "" →
        ("  alt: ").data ∈ textLines (generateYamlContentA a).1.data ∧
          ("  alt: ").data ∈ textLines (generateYamlContentB a).1.data ∧
          ("  alt: ").data ∈ textLines (generateYamlContentC a).1.data) ∧
      ("  alt: undefined").data ∈
        textLines (generateYamlContentE a).1.data := by
  have he : ("  alt: " ++ jsOrBlank a.imageAlt) = "  alt: " := by
    rw [ha]; decide
  have he2 : ("  alt: " ++ jsInterp a.imageAlt) = "  alt: undefined" := by
    rw [ha]; decide
  constructor
  · intro hg
    refine ⟨?_, ?_, ?_⟩
    · rw [textLines_contentA a h]
      unfold linesA
      have hm : ("  alt: ").data ∈ imageLinesA a := by
        unfold imageLinesA
        rw [if_pos hg, he]
        simp
      simp [List.mem_append, hm]
    · rw [textLines_contentB a h]
      unfold linesB
      have hm : ("  alt: ").data ∈ imageLinesB a := by
        unfold imageLinesB
        rw [if_pos hg, he]
        simp
      simp [List.mem_append, hm]
    · rw [textLines_contentC a h]
      unfold linesC
      have hm : ("  alt: ").data ∈ imageLinesC a := by
        unfold imageLinesC
        rw [if_pos hg, he]
        simp
      simp [List.mem_append, hm]
  · rw [textLines_contentE a h]
    unfold linesE
    have hm : ("  alt: undefined").data ∈ imageLinesE a := by
      unfold imageLinesE
      rw [he2]
      simp
    simp [List.mem_append, hm]

def cw10 : EntryAnswers :=
  { title := "t", date := "2025-01-01", tags := some "", description := "d",
    imageSource := "pic.jpg", imageAlt := none }

theorem c10_witness :
    NoNL cw10 ∧ cw10.imageAlt = none ∧ jsTrimS cw10.imageSource ≠ "" ∧
      ("  alt: ").data ∈ textLines (generateYamlContentA cw10).1.data :=
  ⟨by decide, rfl, by decide,
    ((c10_alt_coalescing cw10 (by decide) rfl).1 (by decide)).1⟩

instance (a : EntryAnswers) : Decidable (promptValidB a) := by
  unfold promptValidB
  exact instDecidableAnd

def cx2 : EntryAnswers :=
  { title := "t", date := "2025-01-01", tags := some "", description := "d",
    imageSource := "", imageAlt := none, creditPerson := some "Joe Photog",
    creditLink := some "https://linktojoe.com" }

/-- C2 counterexample: in variant B a record with non-empty `creditPerson`
but blank `imageSource` produces no `creditLink` line at all — the credit
block is nested inside the image block — refuting the claimed iff. -/
theorem c2_counterexample :
    cx2.creditPerson = some "Joe Photog" ∧
      ∀ l ∈ textLines (generateYamlContentB cx2).1.data,
        startsWithL ("  creditLink: ").data l = false := by
  exact ⟨rfl, by decide⟩

/-- C2 amended: in variant B a `creditLink` line appears iff the trimmed
image source is non-blank AND the trimmed credit person is non-blank; when
both hold the output contains both a `creditPerson` and a `creditLink`
line, and for records satisfying the prompt-sequence invariants the
emitted `creditLink` value passes the URL-shape validator. -/
theorem c2_creditLink_lines (a : EntryAnswers) (h : NoNL a) :
    ((∃ l ∈ textLines (generateYamlContentB a).1.data,
        startsWithL ("  creditLink: ").data l = true) ↔
      (jsTrimS a.imageSource ≠ "" ∧
        jsTrimS (jsOrBlank a.creditPerson) ≠ "")) ∧
    (jsTrimS a.imageSource ≠ "" → jsTrimS (jsOrBlank a.creditPerson) ≠ "" →
      ("  creditPerson: " ++ jsInterp a.creditPerson).data ∈
          textLines (generateYamlContentB a).1.data ∧
        ("  creditLink: " ++ jsInterp a.creditLink).data ∈
          textLines (generateYamlContentB a).1.data) ∧
    (promptValidB a → jsTrimS (jsOrBlank a.creditPerson) ≠ "" →
      urlTest (jsOrBlank a.creditLink) = true) := by
  rw [textLines_contentB a h]
  refine ⟨⟨?_, ?_⟩, ?_, ?_⟩
  · rintro ⟨l, hl, hsw⟩
    have hx : head3 l = some (' ', ' ', 'c') :=
      head3_of_startsWithL ' ' ' ' 'c' _ l (by exact hsw)
    rcases mem_linesB_cases a _ hl with h1 | h1 | h1 | h1 | h1
    · rcases headLines_mem_head2 a _ h1 with h2 | h2 | h2 | h2 <;>
        · rw [head2_of_head3 l _ _ _ hx] at h2
          exact absurd h2 (by decide)
    · rcases tagLines_mem_head3 _ _ h1 with h2 | h2 | h2
      · rw [hx] at h2
        exact absurd h2 (by decide)
      · rw [h2] at hx
        exact absurd hx (by decide)
      · rw [hx] at h2
        exact absurd h2 (by decide)
    · rcases flagLinesB_mem a _ h1 with h2 | h2 | h2 <;>
        · rw [h2] at hx
          exact absurd hx (by decide)
    · exact imageLinesB_credit_gate a l h1 hx
    · rw [h1] at hx
      exact absurd hx (by decide)
  · rintro ⟨hg, hc⟩
    have hmem : ("  creditLink: " ++ jsInterp a.creditLink).data ∈
        imageLinesB a := by
      unfold imageLinesB
      rw [if_pos hg, creditLines_pos a hc]
      simp
    refine ⟨("  creditLink: " ++ jsInterp a.creditLink).data, ?_, ?_⟩
    · unfold linesB
      apply List.mem_append_left
      apply List.mem_append_right
      exact hmem
    · rw [String.data_append]
      exact startsWithL_append_self _ _
  · intro hg hc
    have hp : ("  creditPerson: " ++ jsInterp a.creditPerson).data ∈
        imageLinesB a := by
      unfold imageLinesB
      rw [if_pos hg, creditLines_pos a hc]
      simp
    have hk : ("  creditLink: " ++ jsInterp a.creditLink).data ∈
        imageLinesB a := by
      unfold imageLinesB
      rw [if_pos hg, creditLines_pos a hc]
      simp
    constructor
    · unfold linesB
      apply List.mem_append_left
      apply List.mem_append_right
      exact hp
    · unfold linesB
      apply List.mem_append_left
      apply List.mem_append_right
      exact hk
  · intro hpv hc
    exact (hpv.2.2.1 hc).2

def cw2 : EntryAnswers :=
  { title := "t", date := "2025-01-01", tags := some "", description := "d",
    imageSource := "a.jpg", imageAlt := some "alt",
    creditPerson := some "Joe Photog",
    creditLink := some "https://linktojoe.com" }

theorem c2_witness :
    NoNL cw2 ∧ promptValidB cw2 ∧ jsTrimS cw2.imageSource ≠ "" ∧
      jsTrimS (jsOrBlank cw2.creditPerson) ≠ "" ∧
      (("  creditPerson: " ++ jsInterp cw2.creditPerson).data ∈
          textLines (generateYamlContentB cw2).1.data ∧
        ("  creditLink: " ++ jsInterp cw2.creditLink).data ∈
          textLines (generateYamlContentB cw2).1.data) ∧
      urlTest (jsOrBlank cw2.creditLink) = true :=
  ⟨by decide, by decide, by decide, by decide,
    (c2_creditLink_lines cw2 (by decide)).2.1 (by decide) (by decide),
    (c2_creditLink_lines cw2 (by decide)).2.2 (by decide) (by decide)⟩

/-- C6: in the multi-entry-type variant D, an entry of type `Note` is
written to `<base>/notes/<slug(title)>.md`, and the assembled front matter
always ends with a `draft: true` line immediately before the closing `---`
delimiter. -/
theorem c6_note_path_and_draft (a : EntryAnswers) (h : NoNL a) :
    (a.entryType = EntryType.Note →
        mainFilePathD a = BASE_DIR ++ "notes/" ++ slugify a.title ++ ".md") ∧
      ∃ init, textLines (generateYamlContentD a).1.data =
        init ++ [("draft: true").data, ("---").data] := by
  constructor
  · intro ht
    have h2 : (generateYamlContentD a).2 = slugify a.title := rfl
    unfold mainFilePathD
    rw [ht, h2]
    rw [show entryTypeToDir EntryType.Note = "notes" from rfl]
    apply String.ext
    simp [String.data_append, List.append_assoc]
  · refine ⟨headLines a ++ tagLines (jsTagsArray a.tags) ++ flagLinesB a ++
      imageLinesD a, ?_⟩
    rw [textLines_contentD a h]
    unfold linesD
    simp [List.append_assoc]

def cw6 : EntryAnswers :=
  { entryType := .Note, title := "A test note", date := "2025-02-07",
    tags := some "notes", description := "d", imageSource := "" }

theorem c6_witness :
    NoNL cw6 ∧ cw6.entryType = EntryType.Note ∧
      mainFilePathD cw6 =
        BASE_DIR ++ "notes/" ++ slugify cw6.title ++ ".md" ∧
      ∃ init, textLines (generateYamlContentD cw6).1.data =
        init ++ [("draft: true").data, ("---").data] :=
  ⟨by decide, rfl, (c6_note_path_and_draft cw6 (by decide)).1 rfl,
    (c6_note_path_and_draft cw6 (by decide)).2⟩

/-- C9: tag splitting preserves empty entries and never filters,
deduplicates or reorders: joining the comma-split pieces restores the
input, the number of entries equals the comma count plus one, and inputs
with consecutive, leading or trailing commas keep their empty-string
entries after trimming. -/
theorem c9_tags_preserve_empties :
    (∀ s : String, joinWithChar ',' (splitOnCharJs ',' s.data) = s.data) ∧
      (∀ s : String, s ≠ "" →
        (jsTagsArray (some s)).length = s.data.count ',' + 1) ∧
      jsTagsArray (some "a,,b") = ["a", "", "b"] ∧
      jsTagsArray (some ",a,b,") = ["", "a", "b", ""] := by
  refine ⟨?_, ?_, ?_, ?_⟩
  · intro s
    exact joinWithChar_splitOnCharJs ',' s.data
  · intro s hs
    simp only [jsTagsArray]
    rw [if_neg hs]
    simp [List.length_map, length_splitOnCharJs]
  · decide
  · decide

theorem c9_witness :
    ("a,,b" : String) ≠ "" ∧
      (jsTagsArray (some "a,,b")).length = ("a,,b").data.count ',' + 1 :=
  ⟨by decide, c9_tags_preserve_empties.2.1 "a,,b" (by decide)⟩

def cx7 : EntryAnswers :=
  { title := "t", date := "2025-01-01", tags := some "x", description := "d",
    imageSource := "pic.jpg", imageAlt := some "alt",
    creditPerson := some "Joe Photog",
    creditLink := some "https://linktojoe.com" }

/-- C7 counterexample: in variant B's review loop, rejecting and then
pressing enter at every re-edit question does not reproduce the previous
record: the `creditPerson` question carries no default, so the previous
value `Joe Photog` is replaced by the blank answer — not every field's
prompt is defaulted to its previous value. -/
theorem c7_counterexample :
    cx7.creditPerson = some "Joe Photog" ∧
      (reEditAnswersB cx7 allEnter).creditPerson = some "" ∧
      reEditAnswersB cx7 allEnter ≠ cx7 := by
  exact ⟨rfl, by decide, by decide⟩

/-- C7 amended: on rejection the full prompt sequence is re-run and the
assembler re-applied, looping until acceptance.  In variant C's re-edit
every question defaults to its previous value, so pressing enter everywhere
preserves each field; in variant B's re-edit the same holds for every
question except `creditPerson` and `creditLink`, which are declared without
defaults (enter yields blank); `when`-guarded questions are re-asked only
while their guard holds. -/
theorem c7_review_loop (prev : EntryAnswers) :
    (∀ yaml rest, confirmOrEditYamlB yaml prev (ReviewRound.accept :: rest) =
        some (yaml, prev)) ∧
    (∀ yaml inp rest,
      confirmOrEditYamlB yaml prev (ReviewRound.reject inp :: rest) =
        confirmOrEditYamlB (generateYamlContentB (reEditAnswersB prev inp)).1
          (reEditAnswersB prev inp) rest) ∧
    ((reEditAnswersB prev allEnter).title = prev.title ∧
      (reEditAnswersB prev allEnter).date = prev.date ∧
      (reEditAnswersB prev allEnter).description = prev.description ∧
      (reEditAnswersB prev allEnter).pageHasCode = prev.pageHasCode ∧
      (reEditAnswersB prev allEnter).snow = prev.snow ∧
      (reEditAnswersB prev allEnter).pageHasYoutube = prev.pageHasYoutube ∧
      (reEditAnswersB prev allEnter).imageSource = prev.imageSource) ∧
    (∀ t, prev.tags = some t →
      (reEditAnswersB prev allEnter).tags = some t) ∧
    (∀ s, jsTrimS prev.imageSource ≠ "" → prev.imageAlt = some s →
      (reEditAnswersB prev allEnter).imageAlt = some s) ∧
    (jsTrimS prev.imageSource ≠ "" →
      (reEditAnswersB prev allEnter).creditPerson = some "") ∧
    ((reEditAnswersC prev allEnter).title = prev.title ∧
      (reEditAnswersC prev allEnter).date = prev.date ∧
      (reEditAnswersC prev allEnter).description = prev.description ∧
      (reEditAnswersC prev allEnter).pageHasCode = prev.pageHasCode ∧
      (reEditAnswersC prev allEnter).snow = prev.snow ∧
      (reEditAnswersC prev allEnter).pageHasVideo = prev.pageHasVideo ∧
      (reEditAnswersC prev allEnter).imageSource = prev.imageSource) ∧
    (∀ s, jsTrimS prev.imageSource ≠ "" → prev.imageAlt = some s →
      (reEditAnswersC prev allEnter).imageAlt = some s) := by
  refine ⟨fun yaml rest => rfl, fun yaml inp rest => rfl,
    ⟨rfl, rfl, rfl, rfl, rfl, rfl, rfl⟩, ?_, ?_, ?_,
    ⟨rfl, rfl, rfl, rfl, rfl, rfl, rfl⟩, ?_⟩
  · intro t ht
    simp [reEditAnswersB, allEnter, askText, ht]
  · intro s hg ha
    simp [reEditAnswersB, allEnter, askText, askFlag, hg, ha]
  · intro hg
    simp [reEditAnswersB, allEnter, askText, askFlag, hg]
  · intro s hg ha
    simp [reEditAnswersC, allEnter, askText, askFlag, hg, ha]

def cw7 : EntryAnswers :=
  { title := "t", date := "2025-01-01", tags := some "x", description := "d",
    imageSource := "pic.jpg", imageAlt := some "alt",
    creditPerson := some "Joe", creditLink := some "linktojoe.com" }

theorem c7_witness :
    jsTrimS cw7.imageSource ≠ "" ∧ cw7.imageAlt = some "alt" ∧
      (reEditAnswersB cw7 allEnter).imageAlt = some "alt" ∧
      (reEditAnswersB cw7 allEnter).creditPerson = some "" :=
  ⟨by decide, rfl,
    (c7_review_loop cw7).2.2.2.2.1 "alt" (by decide) rfl,
    (c7_review_loop cw7).2.2.2.2.2.1 (by decide)⟩
